import Mathlib

/-!
Shallow embedding of the BigQuery SQL table-name parser and the
allowed-dataset query validator of this repository
(`internal/tools/bigquery/bigquerycommon/table_name_parser.go` in the
variant bundled as `src/unnamed/part_000`, and
`internal/tools/bigquery/bigquerycommon/util.go`), together with proofs
about the embedded definitions.

The Go code walks `[]rune` slices; we walk `List Char`.  Go's
`unicode.IsLetter`, `unicode.IsNumber`, `unicode.IsSpace` and
`strings.ToLower` are modelled on their ASCII fragments
(`Char.isAlpha`, `Char.isDigit`, ASCII whitespace, ASCII lowercasing);
all keywords and delimiters the parser compares against are ASCII, and
Go's occasional byte-index/rune-index mixing (`strings.Index` applied
to a rune slice re-encoded as a string) agrees with rune indexing on
ASCII input.

Recursion is expressed with an explicit fuel parameter so that every
definition is executable by kernel reduction; the fuel is only a depth
bound, and `parseSQL_fuel_sufficient` (claim C9) proves that the fuel
budget used by `TableParser` is never exhausted.
-/

namespace BQ

/-- ASCII fragment of Go `unicode.IsLetter`. -/
def goIsLetter (c : Char) : Bool := c.isAlpha

/-- ASCII fragment of Go `unicode.IsNumber`. -/
def goIsNumber (c : Char) : Bool := c.isDigit

/-- ASCII fragment of Go `unicode.IsSpace`. -/
def goIsSpace (c : Char) : Bool :=
  c = ' ' || c = '\t' || c = '\n' || c = '\r' || c = '\x0b' || c = '\x0c'

/-- ASCII lowercasing of one character (fragment of Go `strings.ToLower`). -/
def lowerChar (c : Char) : Char := c.toLower

/-- ASCII uppercasing of one character (fragment of Go `strings.ToUpper`). -/
def upperChar (c : Char) : Char := c.toUpper

/-- ASCII fragment of Go `strings.ToLower` on a string. -/
def lowerS (s : String) : String := String.mk (s.data.map lowerChar)

/-- ASCII fragment of Go `strings.ToUpper` on a string. -/
def upperS (s : String) : String := String.mk (s.data.map upperChar)

/-- Go `strings.HasPrefix` on rune lists. -/
def hasPre (p : String) (l : List Char) : Bool := p.data.isPrefixOf l

/-- ASCII case folding used by the Go helper `hasPrefixFold`. -/
def foldChar (c : Char) : Char :=
  if 'A' ≤ c ∧ c ≤ 'Z' then Char.ofNat (c.toNat + 32) else c

/-- Go helper `hasPrefixFold`: prefix test, ASCII case-insensitive. -/
def foldPre : List Char → List Char → Bool
  | [], _ => true
  | _ :: _, [] => false
  | p :: ps, c :: cs => foldChar p = foldChar c && foldPre ps cs

/-- Split a rune list on a separator character, Go `strings.Split` with a
one-character separator. -/
def splitOnChar (sep : Char) : List Char → List (List Char)
  | [] => [[]]
  | c :: cs =>
    let r := splitOnChar sep cs
    if c = sep then [] :: r else (c :: r.head!) :: r.tail!

/-- Join rune lists with a separator character, Go `strings.Join` with a
one-character separator. -/
def joinSep (sep : Char) : List (List Char) → List Char
  | [] => []
  | [p] => p
  | p :: ps => p ++ sep :: joinSep sep ps

/-- Go `strings.Join(parts, ".")` on string parts. -/
def joinDots (parts : List String) : String :=
  String.mk (joinSep '.' (parts.map String.data))

/-- Index of the first occurrence of `pat` in `l`, Go `strings.Index`
(rune-indexed; agrees with Go's byte index on ASCII input). -/
def indexOfSub (pat : List Char) : List Char → Option Nat
  | [] => if pat.isPrefixOf ([] : List Char) then some 0 else none
  | c :: cs =>
    if pat.isPrefixOf (c :: cs) then some 0
    else (indexOfSub pat cs).map (· + 1)

/-- Index of the first occurrence of one character, Go `strings.Index`
with a one-character pattern. -/
def indexOfChar (ch : Char) : List Char → Option Nat
  | [] => none
  | c :: cs => if c = ch then some 0 else (indexOfChar ch cs).map (· + 1)

/-- Scan for an unescaped closing quote `q`, honouring backslash escapes,
as in the inner `j` loops of Go `findAndParseSQLString`.  Returns the raw
content before the closing quote together with its length. -/
def findCloseEsc (q : Char) : List Char → Option (List Char × Nat)
  | [] => none
  | c :: rest =>
    if c = '\\' then
      match rest with
      | [] => none
      | x :: rest' =>
        (findCloseEsc q rest').map (fun p => (c :: x :: p.1, p.2 + 2))
    else if c = q then some ([], 0)
    else (findCloseEsc q rest).map (fun p => (c :: p.1, p.2 + 1))

/-- Number of leading Go-whitespace characters. -/
def countSpaces : List Char → Nat
  | [] => 0
  | c :: cs => if goIsSpace c then countSpaces cs + 1 else 0

/-- One comment-skipping step of `parseIdentifierSequence`: the number of
characters consumed by a leading `/* ... */`, `-- ...` or `# ...` comment
(zero when no comment starts here or a block comment is unclosed). -/
def commentSkipCount (l : List Char) : Nat :=
  if hasPre "/*" l then
    match indexOfSub "*/".data l with
    | some e => e + 2
    | none => 0
  else if hasPre "--" l || (l.head? = some '#') then
    match indexOfChar '\n' l with
    | some e => e + 1
    | none => l.length
  else 0

/-- Fuelled whitespace-and-comment skipping loop of
`parseIdentifierSequence` (lines 692-713 and 743-764 of the source). -/
def skipWsComGo : Nat → List Char → Nat
  | 0, _ => 0
  | f + 1, l =>
    let s := countSpaces l
    let c := commentSkipCount (l.drop s)
    if s + c = 0 then 0 else s + c + skipWsComGo f (l.drop (s + c))

/-- Whitespace-and-comment skipping; each productive pass consumes at
least one character, so `l.length + 1` rounds of fuel are never
exhausted. -/
def skipWsCom (l : List Char) : Nat := skipWsComGo (l.length + 1) l

/-- Length of the maximal leading run of letters, digits, `_` and `-`:
the unquoted-identifier scan of `parseIdentifierSequence`. -/
def takeIdentRun : List Char → Nat
  | [] => 0
  | c :: cs =>
    if goIsLetter c || goIsNumber c || c = '_' || c = '-' then takeIdentRun cs + 1
    else 0

/-- Insert a string into a list if not already present: the effect of a
Go `map[string]struct{}` insertion, with deterministic order. -/
def insertU (l : List String) (s : String) : List String :=
  if s ∈ l then l else l ++ [s]

mutual

/-- Main loop of Go `parseIdentifierSequence`: skip whitespace and
comments, read a backtick-quoted or unquoted identifier part (splitting
its text on embedded dots), and continue after a dot.  `n` is the number
of characters already consumed. -/
def parseIdentSeqGo : Nat → List Char → List String → Nat →
    Except String (List String × Nat)
  | 0, _, parts, n => .ok (parts, n)
  | f + 1, l, parts, n =>
    let k := skipWsCom l
    match (l.drop k).head? with
    | none => .ok (parts, n + k)
    | some c =>
      if c = '`' then
        match indexOfChar '`' ((l.drop k).drop 1) with
        | none => .error "unclosed backtick identifier"
        | some e =>
          let part := ((l.drop k).drop 1).take e
          parseIdentSeqDot f ((l.drop k).drop (e + 2))
            (parts ++ (splitOnChar '.' part).map String.mk) (n + k + (e + 2))
      else if goIsLetter c || c = '_' then
        let m := takeIdentRun (l.drop k)
        let part := (l.drop k).take m
        parseIdentSeqDot f ((l.drop k).drop m)
          (parts ++ (splitOnChar '.' part).map String.mk) (n + k + m)
      else .ok (parts, n + k)

/-- Between-parts step of Go `parseIdentifierSequence`: skip whitespace
and comments, and continue only when the next character is a dot. -/
def parseIdentSeqDot : Nat → List Char → List String → Nat →
    Except String (List String × Nat)
  | 0, _, parts, n => .ok (parts, n)
  | f + 1, l, parts, n =>
    let k := skipWsCom l
    match (l.drop k).head? with
    | some '.' => parseIdentSeqGo f ((l.drop k).drop 1) parts (n + k + 1)
    | _ => .ok (parts, n + k)

end

/-- Go `parseIdentifierSequence`: parse a sequence of dot-separated
identifier parts, returning the parts and the number of characters
consumed.  Each loop round consumes at least one character, so the fuel
`l.length + 1` is never exhausted. -/
def parseIdentifierSequence (l : List Char) : Except String (List String × Nat) :=
  parseIdentSeqGo (l.length + 1) l [] 0

/-- Go `formatTableID`: turn scanned identifier parts into a
fully-qualified table ID, promoting a two-part `dataset.table` with the
default project, rejecting a two-part ID without one, and silently
producing the empty string for any other arity. -/
def formatTableID (parts : List String) (defaultProjectID : String) :
    Except String String :=
  if parts.length < 2 || parts.length > 3 then .ok ""
  else if parts.length = 3 then .ok (joinDots parts)
  else if defaultProjectID = "" then
    .error ("query contains table '" ++ joinDots parts ++
      "' without project ID, and no default project ID is provided")
  else .ok (defaultProjectID ++ "." ++ joinDots parts)

/-- Go `parserState`: the mode of the SQL scanner's state machine. -/
inductive PState where
  | normal
  | inSingleQuote
  | inDoubleQuote
  | inTripleSingleQuote
  | inTripleDoubleQuote
  | inLineCommentDash
  | inLineCommentHash
  | inMultiLineComment
  | inRawSingleQuote
  | inRawDoubleQuote
  | inRawTripleSingleQuote
  | inRawTripleDoubleQuote
deriving Repr, DecidableEq

/-- Go `tableFollowsKeywords`: keywords after which a table name is
expected. -/
def tableFollowsKeywords : List String :=
  ["from", "join", "into", "update", "table", "using", "insert", "merge"]

/-- Go `tableContextExitKeywords`: keywords that leave a table-name
context. -/
def tableContextExitKeywords : List String :=
  ["where", "group", "order", "having", "limit", "window",
   "union", "intersect", "except", "on", "set", "when"]

/-- The DML/DDL statement verbs tracked by `parseSQL` for the
dataset-level security check. -/
def statementVerbs : List String :=
  ["select", "insert", "update", "delete", "merge", "create", "alter", "drop"]

/-- Shared mutable maps of one `TableParser` invocation: the collected
table IDs, the visited dynamic-SQL strings and the alias set. -/
structure Ctx where
  tableIDSet : List String
  visitedSQLs : List String
  aliases : List String
deriving Repr, DecidableEq

/-- Per-call scanner variables of `parseSQL` other than the character
cursor: the expectation flags and the keyword registers. -/
structure LoopSt where
  expectingTable : Bool
  expectingAlias : Bool
  expectingCTE : Bool
  lastTableKeyword : String
  lastToken : String
  statementVerb : String
deriving Repr, DecidableEq

/-- Initial scanner variables of a `parseSQL` call. -/
def initSt : LoopSt :=
  { expectingTable := false, expectingAlias := false, expectingCTE := false,
    lastTableKeyword := "", lastToken := "", statementVerb := "" }

/-- Outcome of processing one identifier sequence in normal state:
abort with an error, enter the (unreachable) dynamic-SQL expansion, or
continue scanning with updated context. -/
inductive IdentRes where
  | fail (msg : String)
  | dynamic (ctx : Ctx) (st : LoopSt)
  | step (ctx : Ctx) (st : LoopSt)
deriving Repr, DecidableEq

/-- Security gate of `parseSQL` (source lines 258-276): the checks for
`EXECUTE IMMEDIATE`, `CREATE PROCEDURE`/`FUNCTION`, `CALL` and
dataset-level `CREATE`/`ALTER`/`DROP SCHEMA|DATASET`. -/
def securityDeny (keyword lastToken statementVerb : String) : Option String :=
  if keyword = "immediate" && lastToken = "execute" then
    some "EXECUTE IMMEDIATE is not allowed when dataset restrictions are in place"
  else if (lastToken = "create" || lastToken = "create or" ||
      lastToken = "create or replace")
      && (keyword = "procedure" || keyword = "function" ||
        keyword = "table function") then
    let t := upperS lastToken
    let t := if t = "" then "CREATE" else t
    some ("unanalyzable statements like '" ++ t ++ " " ++ upperS keyword ++
      "' are not allowed")
  else if keyword = "call" then
    some "CALL is not allowed when dataset restrictions are in place"
  else if (statementVerb = "create" || statementVerb = "alter" ||
      statementVerb = "drop")
      && (keyword = "schema" || keyword = "dataset") then
    some ("dataset-level operations like '" ++ upperS statementVerb ++ " " ++
      upperS keyword ++ "' are not allowed")
  else none

/-- Alias-resolution stage of `parseSQL` (source lines 290-314): CTE and
alias registration.  Returns the updated context and state together with
the `isKnownAlias` flag before the re-check. -/
def aliasStage (parts : List String) (fullID keyword : String)
    (ctx : Ctx) (st : LoopSt) : Ctx × LoopSt × Bool :=
  let known0 := ctx.aliases.contains fullID ||
    (parts.length > 1 && ctx.aliases.contains (lowerS parts.head!))
  if st.expectingCTE then
    ({ ctx with aliases := insertU (insertU ctx.aliases fullID) (lowerS parts.head!) },
     { st with expectingCTE := false }, known0)
  else if st.expectingAlias then
    if parts.length = 1 && (tableContextExitKeywords.contains keyword ||
        tableFollowsKeywords.contains keyword ||
        keyword = "select" || keyword = "with") then
      (ctx, { st with expectingAlias := false }, known0)
    else
      ({ ctx with aliases := insertU (insertU ctx.aliases fullID) (lowerS parts.head!) },
       { st with expectingAlias := false }, true)
  else (ctx, st, known0)

/-- Table-collection stage of `parseSQL` (source lines 323-338): when a
table is expected and the identifier is not a known alias, format and
record the table ID. -/
def tableStage (parts : List String) (defaultProjectID : String) (known : Bool)
    (ctx : Ctx) (st : LoopSt) : Except String (Ctx × LoopSt) :=
  if st.expectingTable && !known then
    match (if 2 ≤ parts.length then formatTableID parts defaultProjectID
           else .ok "") with
    | .error m => .error m
    | .ok id =>
      let ctx' := if id ≠ "" then
        { ctx with tableIDSet := insertU ctx.tableIDSet id } else ctx
      .ok (ctx',
        { st with
          expectingTable :=
            if st.lastTableKeyword ≠ "from" then false else st.expectingTable,
          expectingAlias := true })
  else .ok (ctx, st)

/-- Keyword state-update stage of `parseSQL` for single-part identifiers
(source lines 341-371): `WITH`/`AS`/table-follows/context-exit updates,
the `create or replace` token chain, and statement-verb adoption. -/
def keywordStage (keyword origLastToken : String) (st : LoopSt) : LoopSt :=
  let st1 :=
    if keyword = "with" then
      { st with expectingCTE := true, statementVerb := "with" }
    else if keyword = "as" then
      { st with
        expectingAlias :=
          if st.statementVerb ≠ "with" then true else st.expectingAlias,
        expectingTable := false }
    else if tableFollowsKeywords.contains keyword then
      { st with
        expectingTable := true,
        lastTableKeyword := keyword,
        expectingAlias := false }
    else if tableContextExitKeywords.contains keyword then
      { st with
        expectingTable := false,
        lastTableKeyword := "",
        expectingAlias := false }
    else st
  let lt :=
    if origLastToken = "create" && keyword = "or" then "create or"
    else if origLastToken = "create or" && keyword = "replace" then
      "create or replace"
    else keyword
  let st2 := { st1 with lastToken := lt }
  if statementVerbs.contains keyword &&
      (st2.statementVerb = "" || st2.statementVerb = "with") then
    { st2 with statementVerb := keyword }
  else st2

/-- Identifier dispatch of `parseSQL` in normal state (source lines
255-376): security gate, (dead) dynamic-SQL redirect, alias resolution,
table collection and keyword state updates. -/
def handleIdentifier (parts : List String) (defaultProjectID : String)
    (ctx : Ctx) (st : LoopSt) : IdentRes :=
  let keyword := lowerS parts.head!
  let fullID := lowerS (joinDots parts)
  match securityDeny keyword st.lastToken st.statementVerb with
  | some m => .fail m
  | none =>
    if st.lastToken = "execute" && keyword = "immediate" then
      .dynamic ctx { st with lastToken := "execute immediate" }
    else
      let a := aliasStage parts fullID keyword ctx st
      let known := a.2.2 || a.1.aliases.contains fullID
      match tableStage parts defaultProjectID known a.1 a.2.1 with
      | .error m => .fail m
      | .ok (ctx2, st2) =>
        .step ctx2
          (if parts.length = 1 then keywordStage keyword st.lastToken st2
           else { st2 with lastToken := "" })

set_option maxHeartbeats 2000000 in
mutual

/-- Go `parseSQL` (entry): consult the visited-SQL set keyed by the
exact string — on a hit report the whole input as consumed without
rescanning — otherwise record the string and run the scanning loop.
Returns `none` on fuel exhaustion, else the consumed length and the
updated shared context, or the propagated error. -/
def parseSQL : Nat → List Char → String → Ctx → Bool →
    Option (Except String (Nat × Ctx))
  | 0, _, _, _, _ => none
  | f + 1, sql, dp, ctx, inSub =>
    if String.mk sql ∈ ctx.visitedSQLs then some (.ok (sql.length, ctx))
    else
      parseSQLLoop f .normal sql initSt
        { ctx with visitedSQLs := String.mk sql :: ctx.visitedSQLs } inSub dp 0

/-- Character loop of Go `parseSQL`: `acc` characters are already
consumed and `rest` remains.  Non-normal states look only for their
closing sequence (honouring backslash escapes in one-character quoted
strings). -/
def parseSQLLoop : Nat → PState → List Char → LoopSt → Ctx → Bool → String →
    Nat → Option (Except String (Nat × Ctx))
  | 0, _, _, _, _, _, _, _ => none
  | f + 1, state, rest, st, ctx, inSub, dp, acc =>
    match rest with
    | [] =>
      if inSub then some (.error "unclosed subquery parenthesis")
      else some (.ok (acc, ctx))
    | c :: cs =>
      match state with
      | .normal => normalStep f c cs st ctx inSub dp acc
      | .inSingleQuote =>
        if c = '\\' then
          parseSQLLoop f .inSingleQuote (cs.drop 1) st ctx inSub dp (acc + 2)
        else if c = '\'' then
          parseSQLLoop f .normal cs st ctx inSub dp (acc + 1)
        else parseSQLLoop f .inSingleQuote cs st ctx inSub dp (acc + 1)
      | .inDoubleQuote =>
        if c = '\\' then
          parseSQLLoop f .inDoubleQuote (cs.drop 1) st ctx inSub dp (acc + 2)
        else if c = '"' then
          parseSQLLoop f .normal cs st ctx inSub dp (acc + 1)
        else parseSQLLoop f .inDoubleQuote cs st ctx inSub dp (acc + 1)
      | .inTripleSingleQuote =>
        if hasPre "'''" (c :: cs) then
          parseSQLLoop f .normal ((c :: cs).drop 3) st ctx inSub dp (acc + 3)
        else parseSQLLoop f .inTripleSingleQuote cs st ctx inSub dp (acc + 1)
      | .inTripleDoubleQuote =>
        if hasPre "\"\"\"" (c :: cs) then
          parseSQLLoop f .normal ((c :: cs).drop 3) st ctx inSub dp (acc + 3)
        else parseSQLLoop f .inTripleDoubleQuote cs st ctx inSub dp (acc + 1)
      | .inLineCommentDash =>
        if c = '\n' then parseSQLLoop f .normal cs st ctx inSub dp (acc + 1)
        else parseSQLLoop f .inLineCommentDash cs st ctx inSub dp (acc + 1)
      | .inLineCommentHash =>
        if c = '\n' then parseSQLLoop f .normal cs st ctx inSub dp (acc + 1)
        else parseSQLLoop f .inLineCommentHash cs st ctx inSub dp (acc + 1)
      | .inMultiLineComment =>
        if hasPre "*/" (c :: cs) then
          parseSQLLoop f .normal ((c :: cs).drop 2) st ctx inSub dp (acc + 2)
        else parseSQLLoop f .inMultiLineComment cs st ctx inSub dp (acc + 1)
      | .inRawSingleQuote =>
        if c = '\'' then parseSQLLoop f .normal cs st ctx inSub dp (acc + 1)
        else parseSQLLoop f .inRawSingleQuote cs st ctx inSub dp (acc + 1)
      | .inRawDoubleQuote =>
        if c = '"' then parseSQLLoop f .normal cs st ctx inSub dp (acc + 1)
        else parseSQLLoop f .inRawDoubleQuote cs st ctx inSub dp (acc + 1)
      | .inRawTripleSingleQuote =>
        if hasPre "'''" (c :: cs) then
          parseSQLLoop f .normal ((c :: cs).drop 3) st ctx inSub dp (acc + 3)
        else parseSQLLoop f .inRawTripleSingleQuote cs st ctx inSub dp (acc + 1)
      | .inRawTripleDoubleQuote =>
        if hasPre "\"\"\"" (c :: cs) then
          parseSQLLoop f .normal ((c :: cs).drop 3) st ctx inSub dp (acc + 3)
        else parseSQLLoop f .inRawTripleDoubleQuote cs st ctx inSub dp (acc + 1)

/-- Normal-state dispatch of Go `parseSQL` on a nonempty remainder
`c :: cs` (source lines 146-378): comments, commas, subquery
parentheses, statement separators, the eight string-literal openers,
identifier sequences, and the default single-character advance. -/
def normalStep : Nat → Char → List Char → LoopSt → Ctx → Bool → String →
    Nat → Option (Except String (Nat × Ctx))
  | 0, _, _, _, _, _, _, _ => none
  | f + 1, c, cs, st, ctx, inSub, dp, acc =>
    if hasPre "--" (c :: cs) then
      parseSQLLoop f .inLineCommentDash ((c :: cs).drop 2) st ctx inSub dp (acc + 2)
    else if c = '#' then
      parseSQLLoop f .inLineCommentHash cs st ctx inSub dp (acc + 1)
    else if hasPre "/*" (c :: cs) then
      parseSQLLoop f .inMultiLineComment ((c :: cs).drop 2) st ctx inSub dp (acc + 2)
    else if c = ',' then
      parseSQLLoop f .normal cs
        (if st.lastTableKeyword = "from" then
          { st with expectingTable := true, expectingAlias := false }
         else if st.statementVerb = "with" then
          { st with expectingCTE := true, expectingAlias := false }
         else st)
        ctx inSub dp (acc + 1)
    else if c = '(' then
      if st.expectingTable || st.expectingCTE || st.lastToken = "as" then
        match parseSQL f cs dp ctx true with
        | none => none
        | some (.error m) => some (.error m)
        | some (.ok (consumed, ctx')) =>
          parseSQLLoop f .normal (cs.drop consumed)
            { st with
              expectingTable :=
                if st.lastTableKeyword ≠ "from" then false
                else st.expectingTable,
              expectingAlias := true,
              expectingCTE := false }
            ctx' inSub dp (acc + 1 + consumed)
      else parseSQLLoop f .normal cs st ctx inSub dp (acc + 1)
    else if c = ')' then
      if inSub then some (.ok (acc + 1, ctx))
      else parseSQLLoop f .normal cs st ctx inSub dp (acc + 1)
    else if c = ';' then
      parseSQLLoop f .normal cs
        { st with
          expectingTable := false,
          expectingAlias := false,
          expectingCTE := false,
          lastToken := "",
          statementVerb := "" }
        ctx inSub dp (acc + 1)
    else if foldPre "r'''".data (c :: cs) then
      parseSQLLoop f .inRawTripleSingleQuote ((c :: cs).drop 4) st ctx inSub dp (acc + 4)
    else if foldPre "r\"\"\"".data (c :: cs) then
      parseSQLLoop f .inRawTripleDoubleQuote ((c :: cs).drop 4) st ctx inSub dp (acc + 4)
    else if foldPre "r'".data (c :: cs) then
      parseSQLLoop f .inRawSingleQuote ((c :: cs).drop 2) st ctx inSub dp (acc + 2)
    else if foldPre "r\"".data (c :: cs) then
      parseSQLLoop f .inRawDoubleQuote ((c :: cs).drop 2) st ctx inSub dp (acc + 2)
    else if hasPre "'''" (c :: cs) then
      parseSQLLoop f .inTripleSingleQuote ((c :: cs).drop 3) st ctx inSub dp (acc + 3)
    else if hasPre "\"\"\"" (c :: cs) then
      parseSQLLoop f .inTripleDoubleQuote ((c :: cs).drop 3) st ctx inSub dp (acc + 3)
    else if c = '\'' then
      parseSQLLoop f .inSingleQuote cs st ctx inSub dp (acc + 1)
    else if c = '"' then
      parseSQLLoop f .inDoubleQuote cs st ctx inSub dp (acc + 1)
    else if goIsLetter c || c = '`' || c = '_' then
      match parseIdentifierSequence (c :: cs) with
      | .error m => some (.error m)
      | .ok (parts, consumed) =>
        if consumed = 0 then parseSQLLoop f .normal cs st ctx inSub dp (acc + 1)
        else
          match handleIdentifier parts dp ctx st with
          | .fail m => some (.error m)
          | .dynamic ctx' st' =>
            match findAndParseSQLString f ((c :: cs).drop consumed) dp ctx' with
            | none => none
            | some (.error m) => some (.error m)
            | some (.ok (m2, ctx'')) =>
              parseSQLLoop f .normal (((c :: cs).drop consumed).drop m2) st' ctx''
                inSub dp (acc + consumed + m2)
          | .step ctx' st' =>
            parseSQLLoop f .normal ((c :: cs).drop consumed) st' ctx' inSub dp
              (acc + consumed)
    else parseSQLLoop f .normal cs st ctx inSub dp (acc + 1)

/-- Go `findAndParseSQLString`: scan for the first string literal and
parse its content as SQL; this definition handles the `'''` form and
falls through to the other literal forms. -/
def findAndParseSQLString : Nat → List Char → String → Ctx →
    Option (Except String (Nat × Ctx))
  | 0, _, _, _ => none
  | f + 1, s, dp, ctx =>
    match s with
    | [] => some (.ok (0, ctx))
    | _ :: _ =>
      if hasPre "'''" s then
        match indexOfSub "'''".data (s.drop 3) with
        | some e =>
          match parseSQL f ((s.drop 3).take e) dp ctx false with
          | none => none
          | some (.error m) => some (.error m)
          | some (.ok (_, ctx')) => some (.ok (3 + e + 3, ctx'))
        | none => findAndParseTD f s dp ctx
      else findAndParseTD f s dp ctx

/-- Fallthrough of `findAndParseSQLString` for the `"""` literal form. -/
def findAndParseTD : Nat → List Char → String → Ctx →
    Option (Except String (Nat × Ctx))
  | 0, _, _, _ => none
  | f + 1, s, dp, ctx =>
    if hasPre "\"\"\"" s then
      match indexOfSub "\"\"\"".data (s.drop 3) with
      | some e =>
        match parseSQL f ((s.drop 3).take e) dp ctx false with
        | none => none
        | some (.error m) => some (.error m)
        | some (.ok (_, ctx')) => some (.ok (3 + e + 3, ctx'))
      | none => findAndParseSQ f s dp ctx
    else findAndParseSQ f s dp ctx

/-- Fallthrough of `findAndParseSQLString` for the single-quoted form
(backslash escapes honoured). -/
def findAndParseSQ : Nat → List Char → String → Ctx →
    Option (Except String (Nat × Ctx))
  | 0, _, _, _ => none
  | f + 1, s, dp, ctx =>
    match s with
    | '\'' :: cs =>
      match findCloseEsc '\'' cs with
      | some (content, k) =>
        match parseSQL f content dp ctx false with
        | none => none
        | some (.error m) => some (.error m)
        | some (.ok (_, ctx')) => some (.ok (k + 2, ctx'))
      | none => findAndParseDQ f s dp ctx
    | _ => findAndParseDQ f s dp ctx

/-- Fallthrough of `findAndParseSQLString` for the double-quoted form,
and the single-character advance when no literal starts here. -/
def findAndParseDQ : Nat → List Char → String → Ctx →
    Option (Except String (Nat × Ctx))
  | 0, _, _, _ => none
  | f + 1, s, dp, ctx =>
    match s with
    | '"' :: cs =>
      match findCloseEsc '"' cs with
      | some (content, k) =>
        match parseSQL f content dp ctx false with
        | none => none
        | some (.error m) => some (.error m)
        | some (.ok (_, ctx')) => some (.ok (k + 2, ctx'))
      | none =>
        match findAndParseSQLString f (s.drop 1) dp ctx with
        | none => none
        | some (.error m) => some (.error m)
        | some (.ok (n, ctx')) => some (.ok (n + 1, ctx'))
    | _ =>
      match findAndParseSQLString f (s.drop 1) dp ctx with
      | none => none
      | some (.error m) => some (.error m)
      | some (.ok (n, ctx')) => some (.ok (n + 1, ctx'))

end

/-- Fuel budget used by `TableParser`; `parseSQL_fuel_sufficient` shows
it is never exhausted. -/
def parseFuel (sql : List Char) : Nat := 8 * sql.length + 8

/-- Go `TableParser`: run `parseSQL` on fresh shared state, then drop
every collected table ID one of whose dot-suffixes is a known alias. -/
def TableParser (sql defaultProjectID : String) : Except String (List String) :=
  match parseSQL (parseFuel sql.data) sql.data defaultProjectID
      ⟨[], [], []⟩ false with
  | none => .error "fuel exhausted"
  | some (.error m) => .error m
  | some (.ok (_, ctx)) =>
    .ok (ctx.tableIDSet.filter (fun id =>
      let parts := splitOnChar '.' id.data
      ¬ (List.range parts.length).any (fun j =>
        ctx.aliases.contains
          (lowerS (String.mk (joinSep '.' (parts.drop j)))))))

/-- Go `strings.ReplaceAll(s, "\x60", "")`: strip backtick characters. -/
def stripBT (s : String) : String := String.mk (s.data.filter (fun c => c ≠ '`'))

/-- Target-matching step of Go `IsAnyTableExplicitlyReferenced` (source
lines 552-571): match the scanned identifier's lowercased dotted form
against each lowercased target, raw, with backticks stripped from both
sides, and with the cleaned default project prefixed. -/
def checkTargets (targets : List String) (defaultProjectID : String)
    (parts : List String) : Bool :=
  let fullID := lowerS (joinDots parts)
  targets.any (fun target =>
    (fullID = target || (target ++ ".").data.isPrefixOf fullID.data) ||
    (let cleanFullID := stripBT fullID
     let cleanTarget := stripBT target
     (cleanFullID = cleanTarget ||
       (cleanTarget ++ ".").data.isPrefixOf cleanFullID.data) ||
     (defaultProjectID ≠ "" &&
       (let cleanDP := stripBT (lowerS defaultProjectID)
        let withDefault := cleanDP ++ "." ++ cleanFullID
        (withDefault = cleanTarget ||
          (cleanTarget ++ ".").data.isPrefixOf withDefault.data)))))

mutual

/-- Scanning loop of Go `IsAnyTableExplicitlyReferenced`: the same
string/comment state machine as `parseSQL`, ignoring keyword semantics;
identifier sequences are checked against the targets.  Note that the
identifier branch precedes the string-literal branches here (source
lines 546-618). -/
def auditLoop : Nat → PState → List Char → List String → String →
    Except String Bool
  | 0, _, _, _, _ => .ok false
  | f + 1, state, rest, targets, dp =>
    match rest with
    | [] => .ok false
    | c :: cs =>
      match state with
      | .normal =>
        if hasPre "--" rest then auditLoop f .inLineCommentDash (rest.drop 2) targets dp
        else if c = '#' then auditLoop f .inLineCommentHash cs targets dp
        else if hasPre "/*" rest then
          auditLoop f .inMultiLineComment (rest.drop 2) targets dp
        else if goIsLetter c || c = '`' || c = '_' then
          match parseIdentifierSequence rest with
          | .error m => .error m
          | .ok (parts, consumed) =>
            if consumed = 0 then auditNoIdent f c cs targets dp
            else if checkTargets targets dp parts then .ok true
            else auditLoop f .normal (rest.drop consumed) targets dp
        else auditNoIdent f c cs targets dp
      | .inSingleQuote =>
        if c = '\\' then auditLoop f .inSingleQuote (cs.drop 1) targets dp
        else if c = '\'' then auditLoop f .normal cs targets dp
        else auditLoop f .inSingleQuote cs targets dp
      | .inDoubleQuote =>
        if c = '\\' then auditLoop f .inDoubleQuote (cs.drop 1) targets dp
        else if c = '"' then auditLoop f .normal cs targets dp
        else auditLoop f .inDoubleQuote cs targets dp
      | .inTripleSingleQuote =>
        if hasPre "'''" rest then auditLoop f .normal (rest.drop 3) targets dp
        else auditLoop f .inTripleSingleQuote cs targets dp
      | .inTripleDoubleQuote =>
        if hasPre "\"\"\"" rest then auditLoop f .normal (rest.drop 3) targets dp
        else auditLoop f .inTripleDoubleQuote cs targets dp
      | .inLineCommentDash =>
        if c = '\n' then auditLoop f .normal cs targets dp
        else auditLoop f .inLineCommentDash cs targets dp
      | .inLineCommentHash =>
        if c = '\n' then auditLoop f .normal cs targets dp
        else auditLoop f .inLineCommentHash cs targets dp
      | .inMultiLineComment =>
        if hasPre "*/" rest then auditLoop f .normal (rest.drop 2) targets dp
        else auditLoop f .inMultiLineComment cs targets dp
      | .inRawSingleQuote =>
        if c = '\'' then auditLoop f .normal cs targets dp
        else auditLoop f .inRawSingleQuote cs targets dp
      | .inRawDoubleQuote =>
        if c = '"' then auditLoop f .normal cs targets dp
        else auditLoop f .inRawDoubleQuote cs targets dp
      | .inRawTripleSingleQuote =>
        if hasPre "'''" rest then auditLoop f .normal (rest.drop 3) targets dp
        else auditLoop f .inRawTripleSingleQuote cs targets dp
      | .inRawTripleDoubleQuote =>
        if hasPre "\"\"\"" rest then auditLoop f .normal (rest.drop 3) targets dp
        else auditLoop f .inRawTripleDoubleQuote cs targets dp

/-- Normal-state fallthrough of the audit scan when the identifier
branch did not consume anything: string-literal openers, then the
default single-character advance (source lines 578-618 and 679). -/
def auditNoIdent : Nat → Char → List Char → List String → String →
    Except String Bool
  | 0, _, _, _, _ => .ok false
  | f + 1, c, cs, targets, dp =>
  let rest := c :: cs
  if foldPre "r'''".data rest then auditLoop f .inRawTripleSingleQuote (rest.drop 4) targets dp
  else if foldPre "r\"\"\"".data rest then auditLoop f .inRawTripleDoubleQuote (rest.drop 4) targets dp
  else if foldPre "r'".data rest then auditLoop f .inRawSingleQuote (rest.drop 2) targets dp
  else if foldPre "r\"".data rest then auditLoop f .inRawDoubleQuote (rest.drop 2) targets dp
  else if hasPre "'''" rest then auditLoop f .inTripleSingleQuote (rest.drop 3) targets dp
  else if hasPre "\"\"\"" rest then auditLoop f .inTripleDoubleQuote (rest.drop 3) targets dp
  else if c = '\'' then auditLoop f .inSingleQuote cs targets dp
  else if c = '"' then auditLoop f .inDoubleQuote cs targets dp
  else auditLoop f .normal cs targets dp

end

/-- Go `IsAnyTableExplicitlyReferenced`: lexical audit for explicit
mentions of any target table, skipping strings and comments.  Every
scan round consumes at least one character and costs at most two fuel
levels, so fuel `2 * length + 2` is never exhausted. -/
def IsAnyTableExplicitlyReferenced (sql defaultProjectID : String)
    (targetTableIDs : List String) : Except String Bool :=
  auditLoop (2 * sql.data.length + 2) .normal sql.data
    (targetTableIDs.map lowerS) defaultProjectID

/-- A planner table reference `{ProjectId, DatasetId, TableId}` from the
dry-run statistics. -/
structure TableReference where
  projectId : String
  datasetId : String
  tableId : String
deriving Repr, DecidableEq

/-- The query statistics of a dry-run job: statement type, referenced
tables, and optional DDL target/destination tables. -/
structure JobStatisticsQuery where
  statementType : String
  referencedTables : List TableReference
  ddlTargetTable : Option TableReference
  ddlDestinationTable : Option TableReference
deriving Repr, DecidableEq

/-- A dry-run job.  `statisticsQuery = none` stands for the Go
conditions `Statistics == nil || Statistics.Query == nil`, which produce
one and the same error. -/
structure Job where
  statisticsQuery : Option JobStatisticsQuery
deriving Repr, DecidableEq

/-- Format a planner table reference as `project.dataset.table`
(`fmt.Sprintf("%s.%s.%s", ...)`). -/
def fmtTableRef (r : TableReference) : String :=
  r.projectId ++ "." ++ r.datasetId ++ "." ++ r.tableId

/-- Collection step of `ValidateQueryAgainstAllowedDatasets` (source
lines 96-109): the deduplicated set of formatted table IDs from the
planner's `ReferencedTables`, `DdlTargetTable` and
`DdlDestinationTable`. -/
def collectedTables (q : JobStatisticsQuery) : List String :=
  let l := q.referencedTables.foldl (fun acc r => insertU acc (fmtTableRef r)) []
  let l := match q.ddlTargetTable with
    | some r => insertU l (fmtTableRef r)
    | none => l
  match q.ddlDestinationTable with
  | some r => insertU l (fmtTableRef r)
  | none => l

/-- Violation detection of `ValidateQueryAgainstAllowedDatasets` (source
lines 111-119): among the collected IDs, those that split on `.` into
exactly three parts whose (project, dataset) the validator rejects. -/
def violatingTables (isDatasetAllowed : String → String → Bool)
    (collected : List String) : List String :=
  collected.filter (fun id =>
    match splitOnChar '.' id.data with
    | [p, d, _] => ! isDatasetAllowed (String.mk p) (String.mk d)
    | _ => false)

/-- Statement-type gate of `ValidateQueryAgainstAllowedDatasets` (source
lines 85-94): the restricted statement types and their error
messages. -/
def statementTypeGate (t : String) : Option String :=
  if t = "CREATE_SCHEMA" || t = "DROP_SCHEMA" || t = "ALTER_SCHEMA" then
    some ("dataset-level operations like '" ++ t ++
      "' are not allowed when dataset restrictions are in place")
  else if t = "CREATE_FUNCTION" || t = "CREATE_TABLE_FUNCTION" ||
      t = "CREATE_PROCEDURE" then
    some ("creating stored routines ('" ++ t ++
      "') is not allowed when dataset restrictions are in place, as their contents cannot be safely analyzed")
  else if t = "CALL" then
    some ("calling stored procedures ('" ++ t ++
      "') is not allowed when dataset restrictions are in place, as their contents cannot be safely analyzed")
  else none

/-- First ID in the list that splits into exactly three parts with a
disallowed (project, dataset), as the final loop of
`ValidateQueryAgainstAllowedDatasets` (source lines 142-149). -/
def firstDisallowed (isDatasetAllowed : String → String → Bool) :
    List String → Option (String × String)
  | [] => none
  | id :: rest =>
    match splitOnChar '.' id.data with
    | [p, d, _] =>
      if isDatasetAllowed (String.mk p) (String.mk d) then
        firstDisallowed isDatasetAllowed rest
      else some (String.mk p, String.mk d)
    | _ => firstDisallowed isDatasetAllowed rest

/-- Fallback local parse of `ValidateQueryAgainstAllowedDatasets`
(source lines 136-151): run `TableParser` and deny on the first
three-part ID whose dataset is not allowed. -/
def fallbackParse (job : Job) (isDatasetAllowed : String → String → Bool)
    (sql projectID : String) : Except String Job :=
  match TableParser sql projectID with
  | .error e =>
    .error ("could not safely analyze query with dataset restrictions: " ++ e)
  | .ok ts =>
    match firstDisallowed isDatasetAllowed ts with
    | some (p, d) =>
      .error ("access to dataset '" ++ p ++ "." ++ d ++ "' is not allowed")
    | none => .ok job

/-- The first two dot-parts of an ID joined with a dot, as in the step-6
error message of `ValidateQueryAgainstAllowedDatasets`. -/
def firstTwoParts (id : String) : String :=
  String.mk (joinSep '.' ((splitOnChar '.' id.data).take 2))

/-- Steps 6-7 of `ValidateQueryAgainstAllowedDatasets` (source lines
125-151): authorized-view reconciliation via the explicit-reference
audit, then the fallback local parse. -/
def afterFastAllow (job : Job) (isDatasetAllowed : String → String → Bool)
    (sql projectID : String) (violating : List String) : Except String Job :=
  if ¬ violating.isEmpty then
    match IsAnyTableExplicitlyReferenced sql projectID violating with
    | .error e =>
      .error ("failed to analyze query for explicit table references: " ++ e)
    | .ok true =>
      .error ("access to dataset '" ++ firstTwoParts violating.head! ++
        "' is not allowed")
    | .ok false => fallbackParse job isDatasetAllowed sql projectID
  else fallbackParse job isDatasetAllowed sql projectID

/-- Go `ValidateQueryAgainstAllowedDatasets` from the dry-run job
onward: statistics presence check, statement-type gate, planner-table
collection, violation detection, fast allow, and the fallback steps.
The network dry run itself (`DryRunQuery`) is outside the embedding;
its result is the `job` input. -/
def ValidateQueryAgainstAllowedDatasets (job : Job)
    (isDatasetAllowed : String → String → Bool) (sql projectID : String) :
    Except String Job :=
  match job.statisticsQuery with
  | none => .error "dry run failed to return query statistics"
  | some q =>
    match statementTypeGate q.statementType with
    | some e => .error e
    | none =>
      let collected := collectedTables q
      let violating := violatingTables isDatasetAllowed collected
      if ¬ collected.isEmpty ∧ violating.isEmpty then .ok job
      else afterFastAllow job isDatasetAllowed sql projectID violating

/-! ### Supporting lemmas -/

theorem securityDeny_none (k lt sv : String) (h1 : k ≠ "immediate")
    (h2 : k ≠ "procedure") (h3 : k ≠ "function") (h4 : k ≠ "table function")
    (h5 : k ≠ "call") (h6 : k ≠ "schema") (h7 : k ≠ "dataset") :
    securityDeny k lt sv = none := by
  simp [securityDeny, h1, h2, h3, h4, h5, h6, h7]

theorem aliasStage_fields (parts : List String) (fullID keyword : String)
    (ctx : Ctx) (st : LoopSt) :
    (aliasStage parts fullID keyword ctx st).2.1.statementVerb = st.statementVerb ∧
    (aliasStage parts fullID keyword ctx st).2.1.lastToken = st.lastToken ∧
    (aliasStage parts fullID keyword ctx st).2.1.expectingTable = st.expectingTable ∧
    (aliasStage parts fullID keyword ctx st).2.1.lastTableKeyword = st.lastTableKeyword ∧
    (aliasStage parts fullID keyword ctx st).1.tableIDSet = ctx.tableIDSet := by
  unfold aliasStage
  split
  · simp
  · split
    · split <;> simp
    · simp

theorem tableStage_single (parts : List String) (dp : String) (known : Bool)
    (ctx : Ctx) (st : LoopSt) (hlen : parts.length = 1) :
    ∃ st2, tableStage parts dp known ctx st = .ok (ctx, st2) ∧
      st2.statementVerb = st.statementVerb ∧ st2.lastToken = st.lastToken ∧
      st2.lastTableKeyword = st.lastTableKeyword := by
  unfold tableStage
  have h2 : ¬ 2 ≤ parts.length := by omega
  split
  · refine ⟨{ st with
      expectingTable :=
        if st.lastTableKeyword ≠ "from" then false else st.expectingTable,
      expectingAlias := true }, ?_, rfl, rfl, rfl⟩
    simp only [if_neg h2]
    rfl
  · exact ⟨st, rfl, rfl, rfl, rfl⟩

theorem handleIdentifier_single_step (w dp : String) (ctx : Ctx) (st : LoopSt)
    (hsec : securityDeny (lowerS w) st.lastToken st.statementVerb = none)
    (hdyn : ¬(st.lastToken = "execute" ∧ lowerS w = "immediate")) :
    ∃ ctx' st2, handleIdentifier [w] dp ctx st =
        .step ctx' (keywordStage (lowerS w) st.lastToken st2) ∧
      st2.statementVerb = st.statementVerb ∧ st2.lastToken = st.lastToken ∧
      st2.lastTableKeyword = st.lastTableKeyword := by
  have hdyn' : (st.lastToken = "execute" && lowerS w = "immediate") = false := by
    by_cases hq1 : st.lastToken = "execute"
    · by_cases hq2 : lowerS w = "immediate"
      · exact absurd ⟨hq1, hq2⟩ hdyn
      · simp [hq2]
    · simp [hq1]
  obtain ⟨hsv, hlt, _, hltk, _⟩ :=
    aliasStage_fields [w] (lowerS (joinDots [w])) (lowerS w) ctx st
  obtain ⟨st2, htab, h1, h2, h3⟩ :=
    tableStage_single [w] dp
      ((aliasStage [w] (lowerS (joinDots [w])) (lowerS w) ctx st).2.2 ||
        (aliasStage [w] (lowerS (joinDots [w])) (lowerS w) ctx st).1.aliases.contains
          (lowerS (joinDots [w])))
      (aliasStage [w] (lowerS (joinDots [w])) (lowerS w) ctx st).1
      (aliasStage [w] (lowerS (joinDots [w])) (lowerS w) ctx st).2.1 rfl
  refine ⟨(aliasStage [w] (lowerS (joinDots [w])) (lowerS w) ctx st).1, st2, ?_,
    by rw [h1, hsv], by rw [h2, hlt], by rw [h3, hltk]⟩
  simp only [handleIdentifier, List.head!]
  simp only [hsec, hdyn', Bool.false_eq_true, if_false, htab]
  rfl

theorem findCloseEsc_length_aux (q : Char) :
    ∀ (n : Nat) (l content : List Char) (k : Nat), l.length ≤ n →
      findCloseEsc q l = some (content, k) → content.length ≤ l.length := by
  intro n
  induction n with
  | zero =>
    intro l content k hl h
    cases l with
    | nil => simp [findCloseEsc] at h
    | cons c rest => simp at hl
  | succ n ih =>
    intro l content k hl h
    match l with
    | [] => simp [findCloseEsc] at h
    | c :: rest =>
      simp only [List.length_cons] at hl
      rw [findCloseEsc.eq_def] at h
      by_cases hc : c = '\\'
      · simp only [hc, if_pos] at h
        match rest with
        | [] => simp at h
        | x :: rest' =>
          cases hr : findCloseEsc q rest' with
          | none => simp [hr] at h
          | some p =>
            simp only [hr, Option.map_some', Option.some_inj, Prod.mk.injEq] at h
            have hrec := ih rest' p.1 p.2
              (by simp only [List.length_cons] at hl; omega) hr
            rw [← h.1]
            simp only [List.length_cons]
            omega
      · simp only [hc, if_false, if_neg] at h
        by_cases hq : c = q
        · simp only [hq, if_pos, Option.some_inj, Prod.mk.injEq] at h
          rw [← h.1]
          simp
        · simp only [hq, if_false, if_neg] at h
          cases hr : findCloseEsc q rest with
          | none => simp [hr] at h
          | some p =>
            simp only [hr, Option.map_some', Option.some_inj, Prod.mk.injEq] at h
            have hrec := ih rest p.1 p.2 (by omega) hr
            rw [← h.1]
            simp only [List.length_cons]
            omega

theorem findCloseEsc_length (q : Char) (l content : List Char) (k : Nat)
    (h : findCloseEsc q l = some (content, k)) : content.length ≤ l.length :=
  findCloseEsc_length_aux q l.length l content k (le_refl _) h

set_option maxHeartbeats 4000000 in
theorem parseAdequacy : ∀ f : Nat,
    (∀ sql dp ctx inSub, 8 * List.length sql + 2 ≤ f →
      parseSQL f sql dp ctx inSub ≠ none) ∧
    (∀ state rest st ctx inSub dp acc, 8 * List.length rest + 1 ≤ f →
      parseSQLLoop f state rest st ctx inSub dp acc ≠ none) ∧
    (∀ c cs st ctx inSub dp acc, 8 * (List.length cs + 1) ≤ f →
      normalStep f c cs st ctx inSub dp acc ≠ none) ∧
    (∀ s dp ctx, 8 * List.length s + 5 ≤ f →
      findAndParseSQLString f s dp ctx ≠ none) ∧
    (∀ s dp ctx, s ≠ [] → 8 * List.length s + 4 ≤ f →
      findAndParseTD f s dp ctx ≠ none) ∧
    (∀ s dp ctx, s ≠ [] → 8 * List.length s + 3 ≤ f →
      findAndParseSQ f s dp ctx ≠ none) ∧
    (∀ s dp ctx, s ≠ [] → 8 * List.length s + 2 ≤ f →
      findAndParseDQ f s dp ctx ≠ none) := by
  intro f
  induction f with
  | zero =>
    refine ⟨?_, ?_, ?_, ?_, ?_, ?_, ?_⟩ <;> intros <;> omega
  | succ f ih =>
    obtain ⟨ihP, ihL, ihN, ihF, ihTD, ihSQ, ihDQ⟩ := ih
    refine ⟨?_, ?_, ?_, ?_, ?_, ?_, ?_⟩
    · -- parseSQL
      intro sql dp ctx inSub h
      simp only [parseSQL]
      split
      · simp
      · exact ihL .normal sql initSt _ inSub dp 0 (by omega)
    · -- parseSQLLoop
      intro state rest st ctx inSub dp acc h
      cases rest with
      | nil => simp only [parseSQLLoop]; split <;> simp
      | cons c cs =>
        simp only [List.length_cons] at h
        cases state <;> simp only [parseSQLLoop]
        case normal => exact ihN c cs st ctx inSub dp acc (by omega)
        all_goals repeat' split
        all_goals refine ihL _ _ _ _ _ _ _ ?_
        all_goals try simp only [List.length_drop, List.length_cons]
        all_goals omega
    · -- normalStep
      intro c cs st ctx inSub dp acc h
      rw [normalStep.eq_2]
      by_cases h1 : hasPre "--" (c :: cs) = true
      · rw [if_pos h1]
        exact ihL _ _ _ _ _ _ _
          (by simp only [List.length_drop, List.length_cons]; omega)
      rw [if_neg h1]
      by_cases h2 : c = '#'
      · rw [if_pos h2]
        exact ihL _ _ _ _ _ _ _ (by omega)
      rw [if_neg h2]
      by_cases h3 : hasPre "/*" (c :: cs) = true
      · rw [if_pos h3]
        exact ihL _ _ _ _ _ _ _
          (by simp only [List.length_drop, List.length_cons]; omega)
      rw [if_neg h3]
      by_cases h4 : c = ','
      · rw [if_pos h4]
        exact ihL _ _ _ _ _ _ _ (by omega)
      rw [if_neg h4]
      by_cases h5 : c = '('
      · rw [if_pos h5]
        by_cases h5b :
            (st.expectingTable || st.expectingCTE || decide (st.lastToken = "as")) = true
        · rw [if_pos h5b]
          cases hp : parseSQL f cs dp ctx true with
          | none => exact absurd hp (ihP _ _ _ _ (by omega))
          | some r =>
            cases r with
            | error m => simp
            | ok p =>
              obtain ⟨consumed, ctx2⟩ := p
              exact ihL _ _ _ _ _ _ _
                (by simp only [List.length_drop]; omega)
        · rw [if_neg h5b]
          exact ihL _ _ _ _ _ _ _ (by omega)
      rw [if_neg h5]
      by_cases h6 : c = ')'
      · rw [if_pos h6]
        by_cases h6b : inSub = true
        · rw [if_pos h6b]; simp
        · rw [if_neg h6b]
          exact ihL _ _ _ _ _ _ _ (by omega)
      rw [if_neg h6]
      by_cases h7 : c = ';'
      · rw [if_pos h7]
        exact ihL _ _ _ _ _ _ _ (by omega)
      rw [if_neg h7]
      by_cases h8 : foldPre "r'''".data (c :: cs) = true
      · rw [if_pos h8]
        exact ihL _ _ _ _ _ _ _
          (by simp only [List.length_drop, List.length_cons]; omega)
      rw [if_neg h8]
      by_cases h9 : foldPre "r\"\"\"".data (c :: cs) = true
      · rw [if_pos h9]
        exact ihL _ _ _ _ _ _ _
          (by simp only [List.length_drop, List.length_cons]; omega)
      rw [if_neg h9]
      by_cases h10 : foldPre "r'".data (c :: cs) = true
      · rw [if_pos h10]
        exact ihL _ _ _ _ _ _ _
          (by simp only [List.length_drop, List.length_cons]; omega)
      rw [if_neg h10]
      by_cases h11 : foldPre "r\"".data (c :: cs) = true
      · rw [if_pos h11]
        exact ihL _ _ _ _ _ _ _
          (by simp only [List.length_drop, List.length_cons]; omega)
      rw [if_neg h11]
      by_cases h12 : hasPre "'''" (c :: cs) = true
      · rw [if_pos h12]
        exact ihL _ _ _ _ _ _ _
          (by simp only [List.length_drop, List.length_cons]; omega)
      rw [if_neg h12]
      by_cases h13 : hasPre "\"\"\"" (c :: cs) = true
      · rw [if_pos h13]
        exact ihL _ _ _ _ _ _ _
          (by simp only [List.length_drop, List.length_cons]; omega)
      rw [if_neg h13]
      by_cases h14 : c = '\''
      · rw [if_pos h14]
        exact ihL _ _ _ _ _ _ _ (by omega)
      rw [if_neg h14]
      by_cases h15 : c = '"'
      · rw [if_pos h15]
        exact ihL _ _ _ _ _ _ _ (by omega)
      rw [if_neg h15]
      by_cases h16 : (goIsLetter c || decide (c = '`') || decide (c = '_')) = true
      · rw [if_pos h16]
        repeat' split
        all_goals
          first
          | (solve | simp)
          | (refine ihL _ _ _ _ _ _ _ ?_
             try simp only [List.length_drop, List.length_cons]
             omega)
          | (exact absurd (by assumption) (ihF _ _ _
               (by try simp only [List.length_drop, List.length_cons]; omega)))
      rw [if_neg h16]
      exact ihL _ _ _ _ _ _ _ (by omega)
    · -- findAndParseSQLString
      intro s dp ctx h
      cases s with
      | nil => simp [findAndParseSQLString]
      | cons a as =>
        simp only [List.length_cons] at h
        simp only [findAndParseSQLString]
        repeat' split
        all_goals
          first
          | (solve | simp)
          | (refine ihTD _ _ _ (by simp) ?_
             try simp only [List.length_drop, List.length_cons]
             omega)
          | (exact absurd (by assumption) (ihP _ _ _ _
               (by try simp only [List.length_take, List.length_drop,
                     List.length_cons]; omega)))
    · -- findAndParseTD
      intro s dp ctx hne h
      cases s with
      | nil => exact absurd rfl hne
      | cons a as =>
        simp only [List.length_cons] at h
        simp only [findAndParseTD]
        repeat' split
        all_goals
          first
          | (solve | simp)
          | (exact ihSQ _ _ _ (by simp) (by simp only [List.length_cons]; omega))
          | (exact absurd (by assumption) (ihP _ _ _ _
               (by try simp only [List.length_take, List.length_drop,
                     List.length_cons]; omega)))
    · -- findAndParseSQ
      intro s dp ctx hne h
      simp only [findAndParseSQ]
      repeat' split
      all_goals
        first
        | (solve | simp)
        | (exact ihDQ _ _ _ hne
             (by try simp only [List.length_cons] at h ⊢
                 omega))
        | (have hcl := findCloseEsc_length _ _ _ _ (by assumption)
           simp only [List.length_cons] at h
           exact absurd (by assumption) (ihP _ _ _ _ (by omega)))
    · -- findAndParseDQ
      intro s dp ctx hne h
      have hpos := List.length_pos.mpr hne
      simp only [findAndParseDQ]
      repeat' split
      all_goals
        first
        | (solve | simp)
        | (have hcl := findCloseEsc_length _ _ _ _ (by assumption)
           simp only [List.length_cons] at h
           exact absurd (by assumption) (ihP _ _ _ _ (by omega)))
        | (exact absurd (by assumption) (ihF _ _ _
             (by try simp only [List.length_drop, List.drop_succ_cons,
                    List.drop_zero, List.length_cons] at h ⊢
                 try simp only [List.length_cons] at hpos
                 omega)))

theorem splitOnChar_ne_nil (sep : Char) (l : List Char) :
    splitOnChar sep l ≠ [] := by
  cases l with
  | nil => simp [splitOnChar]
  | cons c cs =>
    simp only [splitOnChar]
    split <;> simp

theorem splitOnChar_notMem (sep : Char) :
    ∀ l p, p ∈ splitOnChar sep l → sep ∉ p := by
  intro l
  induction l with
  | nil =>
    intro p hp
    simp only [splitOnChar, List.mem_singleton] at hp
    simp [hp]
  | cons c cs ih =>
    intro p hp
    simp only [splitOnChar] at hp
    by_cases hc : c = sep
    · rw [if_pos hc] at hp
      rcases List.mem_cons.mp hp with h | h
      · simp [h]
      · exact ih p h
    · rw [if_neg hc] at hp
      obtain ⟨a, t, hr⟩ : ∃ a t, splitOnChar sep cs = a :: t := by
        cases hq : splitOnChar sep cs with
        | nil => exact absurd hq (splitOnChar_ne_nil sep cs)
        | cons a t => exact ⟨a, t, rfl⟩
      rw [hr] at hp
      simp only [List.head!, List.tail!] at hp
      rcases List.mem_cons.mp hp with h1 | h1
      · subst h1
        intro hmem
        rcases List.mem_cons.mp hmem with h2 | h2
        · exact hc h2.symm
        · exact ih a (by rw [hr]; exact List.mem_cons_self _ _) h2
      · exact ih p (by rw [hr]; exact List.mem_cons.mpr (Or.inr h1))

theorem splitOnChar_of_notMem (sep : Char) :
    ∀ l, sep ∉ l → splitOnChar sep l = [l] := by
  intro l
  induction l with
  | nil => intro _; rfl
  | cons c cs ih =>
    intro h
    have hc : ¬ c = sep := fun he => h (he ▸ List.mem_cons_self _ _)
    have hcs : sep ∉ cs := fun hm => h (List.mem_cons_of_mem _ hm)
    simp only [splitOnChar, if_neg hc, ih hcs]
    rfl

theorem splitOnChar_append (sep : Char) :
    ∀ p r, sep ∉ p →
      splitOnChar sep (p ++ sep :: r) = p :: splitOnChar sep r := by
  intro p
  induction p with
  | nil =>
    intro r _
    simp [splitOnChar]
  | cons c p ih =>
    intro r h
    have hc : ¬ c = sep := fun he => h (he ▸ List.mem_cons_self _ _)
    have hp : sep ∉ p := fun hm => h (List.mem_cons_of_mem _ hm)
    have hstep : splitOnChar sep (c :: (p ++ sep :: r)) =
        if c = sep then [] :: splitOnChar sep (p ++ sep :: r)
        else (c :: (splitOnChar sep (p ++ sep :: r)).head!) ::
          (splitOnChar sep (p ++ sep :: r)).tail! := rfl
    rw [List.cons_append, hstep, if_neg hc, ih r hp]
    rfl

theorem splitOnChar_joinSep (sep : Char) :
    ∀ ps, ps ≠ [] → (∀ p ∈ ps, sep ∉ p) →
      splitOnChar sep (joinSep sep ps) = ps := by
  intro ps
  induction ps with
  | nil => intro h _; exact absurd rfl h
  | cons p ps ih =>
    intro _ hall
    cases ps with
    | nil =>
      simp only [joinSep]
      exact splitOnChar_of_notMem sep p (hall p (List.mem_cons_self _ _))
    | cons q qs =>
      have hj : joinSep sep (p :: q :: qs) = p ++ sep :: joinSep sep (q :: qs) := rfl
      rw [hj, splitOnChar_append sep p _ (hall p (List.mem_cons_self _ _)),
        ih (by simp) (fun x hx => hall x (List.mem_cons_of_mem _ hx))]

theorem append_split_dotFree (parts : List String) (part : List Char)
    (hp : ∀ p ∈ parts, '.' ∉ p.data) :
    ∀ p ∈ parts ++ (splitOnChar '.' part).map String.mk, '.' ∉ p.data := by
  intro p hp'
  rcases List.mem_append.mp hp' with h | h
  · exact hp p h
  · obtain ⟨q, hq, he⟩ := List.mem_map.mp h
    rw [← he]
    exact splitOnChar_notMem '.' part q hq

theorem parseIdentSeq_dotFree : ∀ f : Nat,
    (∀ l parts n parts' n',
      (∀ p ∈ parts, '.' ∉ p.data) →
      parseIdentSeqGo f l parts n = .ok (parts', n') →
      ∀ p ∈ parts', '.' ∉ p.data) ∧
    (∀ l parts n parts' n',
      (∀ p ∈ parts, '.' ∉ p.data) →
      parseIdentSeqDot f l parts n = .ok (parts', n') →
      ∀ p ∈ parts', '.' ∉ p.data) := by
  intro f
  induction f with
  | zero =>
    constructor
    · intro l parts n parts' n' hp h
      simp only [parseIdentSeqGo, Except.ok.injEq, Prod.mk.injEq] at h
      exact h.1 ▸ hp
    · intro l parts n parts' n' hp h
      simp only [parseIdentSeqDot, Except.ok.injEq, Prod.mk.injEq] at h
      exact h.1 ▸ hp
  | succ f ih =>
    obtain ⟨ihG, ihD⟩ := ih
    constructor
    · intro l parts n parts' n' hp h
      simp only [parseIdentSeqGo] at h
      split at h
      · simp only [Except.ok.injEq, Prod.mk.injEq] at h
        exact h.1 ▸ hp
      · split at h
        · split at h
          · simp at h
          · exact ihD _ _ _ _ _ (append_split_dotFree parts _ hp) h
        · split at h
          · exact ihD _ _ _ _ _ (append_split_dotFree parts _ hp) h
          · simp only [Except.ok.injEq, Prod.mk.injEq] at h
            exact h.1 ▸ hp
    · intro l parts n parts' n' hp h
      simp only [parseIdentSeqDot] at h
      split at h
      · exact ihG _ _ _ _ _ hp h
      · simp only [Except.ok.injEq, Prod.mk.injEq] at h
        exact h.1 ▸ hp

theorem parseIdentifierSequence_dotFree (l : List Char) (parts : List String)
    (n : Nat) (h : parseIdentifierSequence l = .ok (parts, n)) :
    ∀ p ∈ parts, '.' ∉ p.data :=
  (parseIdentSeq_dotFree (l.length + 1)).1 l [] 0 parts n (by simp) h

theorem insertU_mem (l : List String) (s x : String) (h : x ∈ insertU l s) :
    x ∈ l ∨ x = s := by
  unfold insertU at h
  split at h
  · exact Or.inl h
  · rcases List.mem_append.mp h with h | h
    · exact Or.inl h
    · exact Or.inr (by simpa using h)

theorem formatTableID_shape (parts : List String) (dp : String) (id : String)
    (hdp : '.' ∉ dp.data) (hparts : ∀ p ∈ parts, '.' ∉ p.data)
    (h : formatTableID parts dp = .ok id) (hne : id ≠ "") :
    (splitOnChar '.' id.data).length = 3 := by
  have hps : ∀ q ∈ parts.map String.data, '.' ∉ q := by
    intro q hq
    obtain ⟨p, hpm, he⟩ := List.mem_map.mp hq
    exact he ▸ hparts p hpm
  unfold formatTableID at h
  split at h
  · simp only [Except.ok.injEq] at h
    exact absurd h.symm hne
  · rename_i hrange
    simp only [Bool.or_eq_true, decide_eq_true_eq, not_or] at hrange
    have hnnil : parts.map String.data ≠ [] := by
      intro hnil
      have hl := congrArg List.length hnil
      simp only [List.length_map, List.length_nil] at hl
      omega
    split at h
    · rename_i h3
      simp only [Except.ok.injEq] at h
      subst h
      show (splitOnChar '.' (joinSep '.' (parts.map String.data))).length = 3
      rw [splitOnChar_joinSep '.' (parts.map String.data) hnnil hps]
      simp [h3]
    · split at h
      · exact absurd h (by simp)
      · rename_i h3 _
        simp only [Except.ok.injEq] at h
        subst h
        have h2 : parts.length = 2 := by omega
        have hdata : (dp ++ "." ++ joinDots parts).data =
            dp.data ++ '.' :: joinSep '.' (parts.map String.data) := by
          simp [String.data_append, joinDots]
        rw [hdata, splitOnChar_append '.' dp.data _ hdp,
          splitOnChar_joinSep '.' (parts.map String.data) hnnil hps]
        simp [h2]

theorem tableStage_tableIDSet (parts : List String) (dp : String) (known : Bool)
    (ctx : Ctx) (st : LoopSt) (ctx2 : Ctx) (st2 : LoopSt)
    (hdp : '.' ∉ dp.data) (hparts : ∀ p ∈ parts, '.' ∉ p.data)
    (h : tableStage parts dp known ctx st = .ok (ctx2, st2)) :
    ∀ id ∈ ctx2.tableIDSet, id ∈ ctx.tableIDSet ∨
      (splitOnChar '.' id.data).length = 3 := by
  simp only [tableStage] at h
  split at h
  · split at h
    · exact absurd h (by simp)
    · rename_i id0 heqf
      split at h
      · rename_i hne0
        simp only [Except.ok.injEq, Prod.mk.injEq] at h
        obtain ⟨h1, _⟩ := h
        rw [← h1]
        intro id hid
        rcases insertU_mem _ _ _ hid with hm | he
        · exact Or.inl hm
        · subst he
          right
          have hlen : 2 ≤ parts.length := by
            by_contra hlt
            rw [if_neg hlt] at heqf
            simp only [Except.ok.injEq] at heqf
            exact hne0 heqf.symm
          rw [if_pos hlen] at heqf
          exact formatTableID_shape parts dp id hdp hparts heqf hne0
      · simp only [Except.ok.injEq, Prod.mk.injEq] at h
        obtain ⟨h1, _⟩ := h
        rw [← h1]
        exact fun id hid => Or.inl hid
  · simp only [Except.ok.injEq, Prod.mk.injEq] at h
    obtain ⟨h1, _⟩ := h
    rw [← h1]
    exact fun id hid => Or.inl hid

theorem handleIdentifier_dynamic_ctx (parts : List String) (dp : String)
    (ctx : Ctx) (st : LoopSt) (ctx' : Ctx) (st' : LoopSt)
    (h : handleIdentifier parts dp ctx st = .dynamic ctx' st') : ctx' = ctx := by
  simp only [handleIdentifier] at h
  split at h
  · simp at h
  · split at h
    · simp only [IdentRes.dynamic.injEq] at h
      exact h.1.symm
    · split at h <;> simp at h

theorem handleIdentifier_step_tableIDSet (parts : List String) (dp : String)
    (ctx : Ctx) (st : LoopSt) (ctx2 : Ctx) (st2 : LoopSt)
    (hdp : '.' ∉ dp.data) (hparts : ∀ p ∈ parts, '.' ∉ p.data)
    (h : handleIdentifier parts dp ctx st = .step ctx2 st2) :
    ∀ id ∈ ctx2.tableIDSet, id ∈ ctx.tableIDSet ∨
      (splitOnChar '.' id.data).length = 3 := by
  simp only [handleIdentifier] at h
  split at h
  · simp at h
  · split at h
    · simp at h
    · split at h
      · simp at h
      · rename_i ctxA stA heq
        simp only [IdentRes.step.injEq] at h
        obtain ⟨h1, _⟩ := h
        subst h1
        intro id hid
        rcases tableStage_tableIDSet _ _ _ _ _ _ _ hdp hparts heq id hid with
          hm | hs
        · left
          rw [← (aliasStage_fields parts (lowerS (joinDots parts))
            (lowerS parts.head!) ctx st).2.2.2.2]
          exact hm
        · exact Or.inr hs

theorem memOrShape_trans {S : String → Prop} {A B C : List String}
    (h2 : ∀ id ∈ C, id ∈ B ∨ S id) (h1 : ∀ id ∈ B, id ∈ A ∨ S id) :
    ∀ id ∈ C, id ∈ A ∨ S id := by
  intro id hid
  rcases h2 id hid with h | h
  · exact h1 id h
  · exact Or.inr h

set_option maxHeartbeats 4000000 in
theorem parseShape (dp : String) (hdp : '.' ∉ dp.data) : ∀ f : Nat,
    (∀ sql ctx inSub n ctx2,
      parseSQL f sql dp ctx inSub = some (.ok (n, ctx2)) →
      ∀ id ∈ ctx2.tableIDSet, id ∈ ctx.tableIDSet ∨
        (splitOnChar '.' id.data).length = 3) ∧
    (∀ state rest st ctx inSub acc n ctx2,
      parseSQLLoop f state rest st ctx inSub dp acc = some (.ok (n, ctx2)) →
      ∀ id ∈ ctx2.tableIDSet, id ∈ ctx.tableIDSet ∨
        (splitOnChar '.' id.data).length = 3) ∧
    (∀ c cs st ctx inSub acc n ctx2,
      normalStep f c cs st ctx inSub dp acc = some (.ok (n, ctx2)) →
      ∀ id ∈ ctx2.tableIDSet, id ∈ ctx.tableIDSet ∨
        (splitOnChar '.' id.data).length = 3) ∧
    (∀ s ctx n ctx2,
      findAndParseSQLString f s dp ctx = some (.ok (n, ctx2)) →
      ∀ id ∈ ctx2.tableIDSet, id ∈ ctx.tableIDSet ∨
        (splitOnChar '.' id.data).length = 3) ∧
    (∀ s ctx n ctx2,
      findAndParseTD f s dp ctx = some (.ok (n, ctx2)) →
      ∀ id ∈ ctx2.tableIDSet, id ∈ ctx.tableIDSet ∨
        (splitOnChar '.' id.data).length = 3) ∧
    (∀ s ctx n ctx2,
      findAndParseSQ f s dp ctx = some (.ok (n, ctx2)) →
      ∀ id ∈ ctx2.tableIDSet, id ∈ ctx.tableIDSet ∨
        (splitOnChar '.' id.data).length = 3) ∧
    (∀ s ctx n ctx2,
      findAndParseDQ f s dp ctx = some (.ok (n, ctx2)) →
      ∀ id ∈ ctx2.tableIDSet, id ∈ ctx.tableIDSet ∨
        (splitOnChar '.' id.data).length = 3) := by
  intro f
  induction f with
  | zero =>
    refine ⟨?_, ?_, ?_, ?_, ?_, ?_, ?_⟩
    · intro sql ctx inSub n ctx2 h
      exact absurd h (by simp [parseSQL])
    · intro state rest st ctx inSub acc n ctx2 h
      exact absurd h (by simp [parseSQLLoop])
    · intro c cs st ctx inSub acc n ctx2 h
      exact absurd h (by simp [normalStep])
    · intro s ctx n ctx2 h
      exact absurd h (by simp [findAndParseSQLString])
    · intro s ctx n ctx2 h
      exact absurd h (by simp [findAndParseTD])
    · intro s ctx n ctx2 h
      exact absurd h (by simp [findAndParseSQ])
    · intro s ctx n ctx2 h
      exact absurd h (by simp [findAndParseDQ])
  | succ f ih =>
    obtain ⟨ihP, ihL, ihN, ihF, ihTD, ihSQ, ihDQ⟩ := ih
    refine ⟨?_, ?_, ?_, ?_, ?_, ?_, ?_⟩
    · -- parseSQL
      intro sql ctx inSub n ctx2 h
      simp only [parseSQL] at h
      split at h
      · simp only [Option.some.injEq, Except.ok.injEq, Prod.mk.injEq] at h
        rw [← h.2]
        exact fun id hid => Or.inl hid
      · exact ihL .normal sql initSt
          { ctx with visitedSQLs := String.mk sql :: ctx.visitedSQLs }
          inSub 0 n ctx2 h
    · -- parseSQLLoop
      intro state rest st ctx inSub acc n ctx2 h
      cases rest with
      | nil =>
        simp only [parseSQLLoop] at h
        split at h
        · exact absurd h (by simp)
        · simp only [Option.some.injEq, Except.ok.injEq, Prod.mk.injEq] at h
          rw [← h.2]
          exact fun id hid => Or.inl hid
      | cons c cs =>
        cases state <;> simp only [parseSQLLoop] at h
        case normal => exact ihN _ _ _ _ _ _ _ _ h
        all_goals repeat' split at h
        all_goals exact ihL _ _ _ _ _ _ _ _ h
    · -- normalStep
      intro c cs st ctx inSub acc n ctx2 h
      rw [normalStep.eq_2] at h
      by_cases h1 : hasPre "--" (c :: cs) = true
      · rw [if_pos h1] at h
        exact ihL _ _ _ _ _ _ _ _ h
      rw [if_neg h1] at h
      by_cases h2 : c = '#'
      · rw [if_pos h2] at h
        exact ihL _ _ _ _ _ _ _ _ h
      rw [if_neg h2] at h
      by_cases h3 : hasPre "/*" (c :: cs) = true
      · rw [if_pos h3] at h
        exact ihL _ _ _ _ _ _ _ _ h
      rw [if_neg h3] at h
      by_cases h4 : c = ','
      · rw [if_pos h4] at h
        exact ihL _ _ _ _ _ _ _ _ h
      rw [if_neg h4] at h
      by_cases h5 : c = '('
      · rw [if_pos h5] at h
        by_cases h5b :
            (st.expectingTable || st.expectingCTE || decide (st.lastToken = "as")) = true
        · rw [if_pos h5b] at h
          repeat' split at h
          all_goals
            first
            | (solve | simp at h)
            | (exact memOrShape_trans (ihL _ _ _ _ _ _ _ _ h)
                 (ihP _ _ _ _ _ (by assumption)))
        · rw [if_neg h5b] at h
          exact ihL _ _ _ _ _ _ _ _ h
      rw [if_neg h5] at h
      by_cases h6 : c = ')'
      · rw [if_pos h6] at h
        by_cases h6b : inSub = true
        · rw [if_pos h6b] at h
          simp only [Option.some.injEq, Except.ok.injEq, Prod.mk.injEq] at h
          rw [← h.2]
          exact fun id hid => Or.inl hid
        · rw [if_neg h6b] at h
          exact ihL _ _ _ _ _ _ _ _ h
      rw [if_neg h6] at h
      by_cases h7 : c = ';'
      · rw [if_pos h7] at h
        exact ihL _ _ _ _ _ _ _ _ h
      rw [if_neg h7] at h
      by_cases h8 : foldPre "r'''".data (c :: cs) = true
      · rw [if_pos h8] at h
        exact ihL _ _ _ _ _ _ _ _ h
      rw [if_neg h8] at h
      by_cases h9 : foldPre "r\"\"\"".data (c :: cs) = true
      · rw [if_pos h9] at h
        exact ihL _ _ _ _ _ _ _ _ h
      rw [if_neg h9] at h
      by_cases h10 : foldPre "r'".data (c :: cs) = true
      · rw [if_pos h10] at h
        exact ihL _ _ _ _ _ _ _ _ h
      rw [if_neg h10] at h
      by_cases h11 : foldPre "r\"".data (c :: cs) = true
      · rw [if_pos h11] at h
        exact ihL _ _ _ _ _ _ _ _ h
      rw [if_neg h11] at h
      by_cases h12 : hasPre "'''" (c :: cs) = true
      · rw [if_pos h12] at h
        exact ihL _ _ _ _ _ _ _ _ h
      rw [if_neg h12] at h
      by_cases h13 : hasPre "\"\"\"" (c :: cs) = true
      · rw [if_pos h13] at h
        exact ihL _ _ _ _ _ _ _ _ h
      rw [if_neg h13] at h
      by_cases h14 : c = '\''
      · rw [if_pos h14] at h
        exact ihL _ _ _ _ _ _ _ _ h
      rw [if_neg h14] at h
      by_cases h15 : c = '"'
      · rw [if_pos h15] at h
        exact ihL _ _ _ _ _ _ _ _ h
      rw [if_neg h15] at h
      by_cases h16 : (goIsLetter c || decide (c = '`') || decide (c = '_')) = true
      · rw [if_pos h16] at h
        split at h
        · exact absurd h (by simp)
        · rename_i parts consumed hpi
          split at h
          · exact ihL _ _ _ _ _ _ _ _ h
          · split at h
            · exact absurd h (by simp)
            · rename_i ctxD stD hhi
              have hctxD := handleIdentifier_dynamic_ctx _ _ _ _ _ _ hhi
              subst hctxD
              split at h
              · exact absurd h (by simp)
              · exact absurd h (by simp)
              · rename_i m2 ctxF heqF
                exact memOrShape_trans (ihL _ _ _ _ _ _ _ _ h)
                  (ihF _ _ _ _ heqF)
            · rename_i ctxS stS hhi
              exact memOrShape_trans (ihL _ _ _ _ _ _ _ _ h)
                (handleIdentifier_step_tableIDSet _ _ _ _ _ _ hdp
                  (parseIdentifierSequence_dotFree _ _ _ hpi) hhi)
      rw [if_neg h16] at h
      exact ihL _ _ _ _ _ _ _ _ h
    · -- findAndParseSQLString
      intro s ctx n ctx2 h
      simp only [findAndParseSQLString] at h
      repeat' split at h
      all_goals
        first
        | (solve | simp at h)
        | (exact ihTD _ _ _ _ h)
        | (simp only [Option.some.injEq, Except.ok.injEq, Prod.mk.injEq] at h
           rw [← h.2]
           exact fun id hid => Or.inl hid)
        | (simp only [Option.some.injEq, Except.ok.injEq, Prod.mk.injEq] at h
           rw [← h.2]
           exact ihP _ _ _ _ _ (by assumption))
    · -- findAndParseTD
      intro s ctx n ctx2 h
      simp only [findAndParseTD] at h
      repeat' split at h
      all_goals
        first
        | (solve | simp at h)
        | (exact ihSQ _ _ _ _ h)
        | (simp only [Option.some.injEq, Except.ok.injEq, Prod.mk.injEq] at h
           rw [← h.2]
           exact ihP _ _ _ _ _ (by assumption))
    · -- findAndParseSQ
      intro s ctx n ctx2 h
      simp only [findAndParseSQ] at h
      repeat' split at h
      all_goals
        first
        | (solve | simp at h)
        | (exact ihDQ _ _ _ _ h)
        | (simp only [Option.some.injEq, Except.ok.injEq, Prod.mk.injEq] at h
           rw [← h.2]
           exact ihP _ _ _ _ _ (by assumption))
    · -- findAndParseDQ
      intro s ctx n ctx2 h
      simp only [findAndParseDQ] at h
      repeat' split at h
      all_goals
        first
        | (solve | simp at h)
        | (simp only [Option.some.injEq, Except.ok.injEq, Prod.mk.injEq] at h
           rw [← h.2]
           exact ihP _ _ _ _ _ (by assumption))
        | (simp only [Option.some.injEq, Except.ok.injEq, Prod.mk.injEq] at h
           rw [← h.2]
           exact ihF _ _ _ _ (by assumption))

/-! ### Claim theorems -/

/-- C1: whenever the scanner, in normal state, reads a single-part
identifier `immediate` (ASCII case-insensitively) while `lastToken` is
`"execute"`, the identifier dispatch fails with the EXECUTE IMMEDIATE
error (in particular it never takes the dynamic-SQL recursion branch),
and `TableParser` propagates that error, as on the concrete input
`EXECUTE IMMEDIATE 'SELECT 1'`. -/
theorem execute_immediate_denied :
    (∀ (w dp : String) (ctx : Ctx) (st : LoopSt), lowerS w = "immediate" →
      st.lastToken = "execute" →
      handleIdentifier [w] dp ctx st =
        .fail "EXECUTE IMMEDIATE is not allowed when dataset restrictions are in place") ∧
    TableParser "EXECUTE IMMEDIATE 'SELECT 1'" "p" =
      .error "EXECUTE IMMEDIATE is not allowed when dataset restrictions are in place" := by
  constructor
  · intro w dp ctx st hw hlt
    have hhead : ([w] : List String).head! = w := rfl
    unfold handleIdentifier
    rw [hhead, hw, hlt]
    simp [securityDeny]
  · rfl

/-- C3: for each of the seven restricted statement types, the validator
denies with the corresponding message immediately after the gate; the
error does not depend on the allow-list predicate, the SQL text, or the
project ID, so neither local parser is consulted. -/
theorem statement_type_gate_denies (job : Job) (q : JobStatisticsQuery)
    (v : String → String → Bool) (sql p : String)
    (hjob : job.statisticsQuery = some q) :
    ((q.statementType = "CREATE_SCHEMA" ∨ q.statementType = "DROP_SCHEMA" ∨
        q.statementType = "ALTER_SCHEMA") →
      ValidateQueryAgainstAllowedDatasets job v sql p =
        .error ("dataset-level operations like '" ++ q.statementType ++
          "' are not allowed when dataset restrictions are in place")) ∧
    ((q.statementType = "CREATE_FUNCTION" ∨
        q.statementType = "CREATE_TABLE_FUNCTION" ∨
        q.statementType = "CREATE_PROCEDURE") →
      ValidateQueryAgainstAllowedDatasets job v sql p =
        .error ("creating stored routines ('" ++ q.statementType ++
          "') is not allowed when dataset restrictions are in place, as their contents cannot be safely analyzed")) ∧
    (q.statementType = "CALL" →
      ValidateQueryAgainstAllowedDatasets job v sql p =
        .error ("calling stored procedures ('" ++ q.statementType ++
          "') is not allowed when dataset restrictions are in place, as their contents cannot be safely analyzed")) := by
  refine ⟨?_, ?_, ?_⟩ <;> intro h
  · rcases h with h | h | h <;>
      simp [ValidateQueryAgainstAllowedDatasets, hjob, statementTypeGate, h]
  · rcases h with h | h | h <;>
      simp [ValidateQueryAgainstAllowedDatasets, hjob, statementTypeGate, h]
  · simp [ValidateQueryAgainstAllowedDatasets, hjob, statementTypeGate, h]

/-- C7: a two-part `dataset.table` identifier sequence is rejected by
`formatTableID` with the missing-project error when no default project
is configured, and is otherwise promoted by prefixing the default
project; `TableParser` behaves accordingly end to end on
`SELECT * FROM d.t`. -/
theorem two_part_table_ids (parts : List String) (dp : String)
    (hlen : parts.length = 2) :
    (dp = "" → formatTableID parts dp =
      .error ("query contains table '" ++ joinDots parts ++
        "' without project ID, and no default project ID is provided")) ∧
    (dp ≠ "" → formatTableID parts dp = .ok (dp ++ "." ++ joinDots parts)) ∧
    TableParser "SELECT * FROM d.t" "" =
      .error "query contains table 'd.t' without project ID, and no default project ID is provided" ∧
    TableParser "SELECT * FROM d.t" "p" = .ok ["p.d.t"] := by
  refine ⟨?_, ?_, by rfl, by rfl⟩
  · intro hdp
    simp [formatTableID, hlen, hdp]
  · intro hdp
    simp [formatTableID, hlen, hdp]

/-- C10: an identifier sequence of four or more dot-parts makes
`formatTableID` return the empty string without error, so the reference
is silently absent from `TableParser`'s output, as on the concrete
input `SELECT * FROM a.b.c.d`. -/
theorem four_part_ids_silently_dropped :
    (∀ (parts : List String) (dp : String), 4 ≤ parts.length →
      formatTableID parts dp = .ok "") ∧
    TableParser "SELECT * FROM a.b.c.d" "p" = .ok [] := by
  refine ⟨?_, by rfl⟩
  intro parts dp h
  have : parts.length > 3 := by omega
  simp [formatTableID, this]

set_option maxHeartbeats 2000000 in
/-- C4: a single-part DML/DDL verb keyword read in normal state is
adopted into `statementVerb` whenever the current verb is empty or
`"with"`; consequently `WITH c AS (SELECT 1) DROP SCHEMA d` reaches the
dataset-level deny for `DROP SCHEMA`. -/
theorem statement_verb_adoption :
    (∀ (w dp : String) (ctx : Ctx) (st : LoopSt),
      statementVerbs.contains (lowerS w) →
      (st.statementVerb = "" ∨ st.statementVerb = "with") →
      ∃ ctx' st', handleIdentifier [w] dp ctx st = .step ctx' st' ∧
        st'.statementVerb = lowerS w) ∧
    TableParser "WITH c AS (SELECT 1) DROP SCHEMA d" "p" =
      .error "dataset-level operations like 'DROP SCHEMA' are not allowed" := by
  refine ⟨?_, by rfl⟩
  intro w dp ctx st hmem hsv
  have hcases : lowerS w = "select" ∨ lowerS w = "insert" ∨ lowerS w = "update" ∨
      lowerS w = "delete" ∨ lowerS w = "merge" ∨ lowerS w = "create" ∨
      lowerS w = "alter" ∨ lowerS w = "drop" := by
    simpa [statementVerbs] using hmem
  rcases hcases with h | h | h | h | h | h | h | h <;>
  · obtain ⟨ctx', st2, heq, hsv2, -, -⟩ := handleIdentifier_single_step w dp ctx st
      (securityDeny_none _ _ _ (by rw [h]; decide) (by rw [h]; decide)
        (by rw [h]; decide) (by rw [h]; decide) (by rw [h]; decide)
        (by rw [h]; decide) (by rw [h]; decide))
      (by simp [h])
    refine ⟨ctx', _, heq, ?_⟩
    rw [h]
    rcases hsv with hv | hv <;>
    · rw [hv] at hsv2
      simp [keywordStage, tableFollowsKeywords, tableContextExitKeywords,
        statementVerbs, hsv2]

/-- C5: the context-exit keyword list consists of exactly the twelve
keywords named by the specification (including `union`, `intersect`,
`except`), and reading any of them as a single-part identifier in
normal state clears `expectingTable`, `lastTableKeyword` and
`expectingAlias`. -/
theorem context_exit_clears :
    tableContextExitKeywords =
      ["where", "group", "order", "having", "limit", "window",
       "union", "intersect", "except", "on", "set", "when"] ∧
    ∀ (w dp : String) (ctx : Ctx) (st : LoopSt),
      tableContextExitKeywords.contains (lowerS w) →
      ∃ ctx' st', handleIdentifier [w] dp ctx st = .step ctx' st' ∧
        st'.expectingTable = false ∧ st'.lastTableKeyword = "" ∧
        st'.expectingAlias = false := by
  refine ⟨rfl, ?_⟩
  intro w dp ctx st hmem
  have hcases : lowerS w = "where" ∨ lowerS w = "group" ∨ lowerS w = "order" ∨
      lowerS w = "having" ∨ lowerS w = "limit" ∨ lowerS w = "window" ∨
      lowerS w = "union" ∨ lowerS w = "intersect" ∨ lowerS w = "except" ∨
      lowerS w = "on" ∨ lowerS w = "set" ∨ lowerS w = "when" := by
    simpa [tableContextExitKeywords] using hmem
  rcases hcases with h | h | h | h | h | h | h | h | h | h | h | h <;>
  · obtain ⟨ctx', st2, heq, -, -, -⟩ := handleIdentifier_single_step w dp ctx st
      (securityDeny_none _ _ _ (by rw [h]; decide) (by rw [h]; decide)
        (by rw [h]; decide) (by rw [h]; decide) (by rw [h]; decide)
        (by rw [h]; decide) (by rw [h]; decide))
      (by simp [h])
    refine ⟨ctx', _, heq, ?_, ?_, ?_⟩ <;>
    · rw [h]
      simp [keywordStage, tableFollowsKeywords, tableContextExitKeywords,
        statementVerbs]

/-- C6: the explicit-reference audit matches a scanned identifier
sequence against each target both raw and after stripping backticks
from both sides (exactly or extended with a dot); in particular a
target written with backticks matches SQL text that names the same
table without backticks. -/
theorem explicit_reference_backtick_match :
    (∀ (targets : List String) (dp : String) (parts : List String) (t : String),
      t ∈ targets →
      (lowerS (joinDots parts) = t ∨
        (t ++ ".").data.isPrefixOf (lowerS (joinDots parts)).data ∨
        stripBT (lowerS (joinDots parts)) = stripBT t ∨
        (stripBT t ++ ".").data.isPrefixOf
          (stripBT (lowerS (joinDots parts))).data) →
      checkTargets targets dp parts = true) ∧
    IsAnyTableExplicitlyReferenced "SELECT * FROM p.d.t" "" ["`p`.d.t"] =
      .ok true := by
  refine ⟨?_, by rfl⟩
  intro targets dp parts t ht hmatch
  unfold checkTargets
  rw [List.any_eq_true]
  refine ⟨t, ht, ?_⟩
  rcases hmatch with h | h | h | h <;> simp_all

/-- Dry-run statistics of the C2 counterexample: one referenced table
whose project ID itself contains a dot. -/
def c2Stats : JobStatisticsQuery :=
  ⟨"SELECT", [⟨"a.b", "ds", "t"⟩], none, none⟩

/-- Dry-run job of the C2 counterexample. -/
def c2Job : Job := ⟨some c2Stats⟩

/-- Allow-list predicate of the C2 counterexample: rejects every
dataset. -/
def c2Deny : String → String → Bool := fun _ _ => false

/-- C2 (counterexample): with a dotted project ID the formatted table
ID `a.b.ds.t` splits into four parts, so the violation filter never
consults the allow-list for it; the fast-allow step fires and returns
the planner metadata even though this member's `("a.b", "ds")` is
disallowed — refuting the claim that fast allow requires every
collected member to pass `IsDatasetAllowed`. -/
theorem fast_allow_unchecked_member :
    collectedTables c2Stats = ["a.b.ds.t"] ∧
    (¬ (collectedTables c2Stats).isEmpty ∧
      (violatingTables c2Deny (collectedTables c2Stats)).isEmpty) ∧
    ValidateQueryAgainstAllowedDatasets c2Job c2Deny "q" "p" = .ok c2Job ∧
    c2Deny "a.b" "ds" = false := by
  exact ⟨rfl, ⟨by decide, rfl⟩, rfl, rfl⟩

theorem violPred_false_iff (v : String → String → Bool) (id : String) :
    ((match splitOnChar '.' id.data with
      | [p, d, _] => ! v (String.mk p) (String.mk d)
      | _ => false) = false) ↔
    (∀ pr ds tb, splitOnChar '.' id.data = [pr, ds, tb] →
      v (String.mk pr) (String.mk ds) = true) := by
  rcases hs : splitOnChar '.' id.data with _ | ⟨p1, _ | ⟨p2, _ | ⟨p3, _ | ⟨p4, l⟩⟩⟩⟩ <;>
    simp [hs]

/-- C2 (amended): the fast-allow condition holds if and only if the
collected planner-table set is non-empty and every member whose
formatted ID splits on `.` into exactly three parts passes
`IsDatasetAllowed` on its first two parts (members that do not split
into three parts are never consulted); when the condition holds the
planner metadata is returned at that step, and when the collected set
is empty the validator proceeds directly to the `TableParser` fallback,
which alone can then allow. -/
theorem fast_allow_characterization (job : Job) (q : JobStatisticsQuery)
    (v : String → String → Bool) (sql p : String)
    (hjob : job.statisticsQuery = some q)
    (hgate : statementTypeGate q.statementType = none) :
    ((¬ (collectedTables q).isEmpty ∧
        (violatingTables v (collectedTables q)).isEmpty) ↔
      (collectedTables q ≠ [] ∧ ∀ id ∈ collectedTables q,
        ∀ pr ds tb, splitOnChar '.' id.data = [pr, ds, tb] →
          v (String.mk pr) (String.mk ds) = true)) ∧
    ((¬ (collectedTables q).isEmpty ∧
        (violatingTables v (collectedTables q)).isEmpty) →
      ValidateQueryAgainstAllowedDatasets job v sql p = .ok job) ∧
    (collectedTables q = [] →
      ValidateQueryAgainstAllowedDatasets job v sql p =
        fallbackParse job v sql p) := by
  refine ⟨?_, ?_, ?_⟩
  · constructor
    · rintro ⟨hne, hvi⟩
      refine ⟨fun hc => hne (by simp [hc]), ?_⟩
      intro id hid pr ds tb hsplit
      have hnil : violatingTables v (collectedTables q) = [] := by
        simpa [List.isEmpty_iff] using hvi
      unfold violatingTables at hnil
      have hall := List.filter_eq_nil_iff.mp hnil id hid
      have hfalse : ((match splitOnChar '.' id.data with
          | [p, d, _] => ! v (String.mk p) (String.mk d)
          | _ => false) : Bool) = false := by
        simpa using hall
      exact (violPred_false_iff v id).mp hfalse pr ds tb hsplit
    · rintro ⟨hne, hall⟩
      refine ⟨by simpa [List.isEmpty_iff] using hne, ?_⟩
      rw [List.isEmpty_iff]
      unfold violatingTables
      rw [List.filter_eq_nil_iff]
      intro id hid
      simp only [Bool.not_eq_true]
      exact (violPred_false_iff v id).mpr (hall id hid)
  · rintro ⟨hne, hvi⟩
    simp only [ValidateQueryAgainstAllowedDatasets, hjob, hgate]
    rw [if_pos ⟨hne, hvi⟩]
  · intro hcoll
    simp [ValidateQueryAgainstAllowedDatasets, hjob, hgate, hcoll,
      afterFastAllow, violatingTables]

/-- Witness for C1 at a concrete configuration. -/
theorem execute_immediate_denied_witness :
    handleIdentifier ["IMMEDIATE"] "p" ⟨[], [], []⟩
      { initSt with lastToken := "execute" } =
      .fail "EXECUTE IMMEDIATE is not allowed when dataset restrictions are in place" :=
  execute_immediate_denied.1 "IMMEDIATE" "p" ⟨[], [], []⟩
    { initSt with lastToken := "execute" } (by rfl) (by rfl)

/-- Witness for C3 at a concrete CALL dry-run job. -/
theorem statement_type_gate_denies_witness :
    ValidateQueryAgainstAllowedDatasets ⟨some ⟨"CALL", [], none, none⟩⟩
      (fun _ _ => true) "q" "p" =
      .error "calling stored procedures ('CALL') is not allowed when dataset restrictions are in place, as their contents cannot be safely analyzed" :=
  (statement_type_gate_denies ⟨some ⟨"CALL", [], none, none⟩⟩
    ⟨"CALL", [], none, none⟩ (fun _ _ => true) "q" "p" rfl).2.2 rfl

/-- Witness for C4 at a concrete configuration. -/
theorem statement_verb_adoption_witness :
    ∃ ctx' st', handleIdentifier ["DROP"] "p" ⟨[], [], []⟩ initSt =
      .step ctx' st' ∧ st'.statementVerb = lowerS "DROP" :=
  statement_verb_adoption.1 "DROP" "p" ⟨[], [], []⟩ initSt (by decide)
    (Or.inl rfl)

/-- Witness for C5 at a concrete configuration with `UNION`. -/
theorem context_exit_clears_witness :
    ∃ ctx' st', handleIdentifier ["UNION"] "p" ⟨[], [], []⟩ initSt =
      .step ctx' st' ∧ st'.expectingTable = false ∧
      st'.lastTableKeyword = "" ∧ st'.expectingAlias = false :=
  context_exit_clears.2 "UNION" "p" ⟨[], [], []⟩ initSt (by decide)

/-- Witness for C6 at a concrete backticked target. -/
theorem explicit_reference_backtick_match_witness :
    checkTargets ["`p`.d.t"] "" ["p", "d", "t"] = true :=
  explicit_reference_backtick_match.1 ["`p`.d.t"] "" ["p", "d", "t"]
    "`p`.d.t" (by simp) (Or.inr (Or.inr (Or.inl (by rfl))))

/-- Witness for C7 at the concrete parts `["d", "t"]`. -/
theorem two_part_table_ids_witness :
    formatTableID ["d", "t"] "" =
      .error "query contains table 'd.t' without project ID, and no default project ID is provided" ∧
    formatTableID ["d", "t"] "p" = .ok "p.d.t" :=
  ⟨(two_part_table_ids ["d", "t"] "" rfl).1 rfl,
   (two_part_table_ids ["d", "t"] "p" rfl).2.1 (by decide)⟩

/-- Witness for C10 at the concrete parts `["a", "b", "c", "d"]`. -/
theorem four_part_ids_silently_dropped_witness :
    formatTableID ["a", "b", "c", "d"] "p" = .ok "" :=
  four_part_ids_silently_dropped.1 ["a", "b", "c", "d"] "p" (by decide)

/-- Witness for C2's amended theorem: a fast allow on a concrete
all-allowed job. -/
theorem fast_allow_characterization_witness :
    ValidateQueryAgainstAllowedDatasets
      ⟨some ⟨"SELECT", [⟨"pr", "ds", "t"⟩], none, none⟩⟩
      (fun _ _ => true) "s" "proj" =
      .ok ⟨some ⟨"SELECT", [⟨"pr", "ds", "t"⟩], none, none⟩⟩ :=
  (fast_allow_characterization ⟨some ⟨"SELECT", [⟨"pr", "ds", "t"⟩], none, none⟩⟩
    ⟨"SELECT", [⟨"pr", "ds", "t"⟩], none, none⟩ (fun _ _ => true) "s" "proj"
    rfl rfl).2.1 ⟨by decide, by rfl⟩

/-- C8 (amended): for a default project ID containing no dot, every
string returned by a successful `TableParser` run splits on `'.'` into
exactly three parts: scanned identifier parts are dot-free (embedded
dots split them), and `formatTableID` only emits a three-part join or a
default-project-prefixed two-part join.  The no-whitespace clause of the
original claim is refuted by `backtick_whitespace_in_table_ids`. -/
theorem three_part_table_ids (sql dp : String) (hdp : '.' ∉ dp.data)
    (ts : List String) (h : TableParser sql dp = .ok ts) :
    ∀ id ∈ ts, (splitOnChar '.' id.data).length = 3 := by
  unfold TableParser at h
  split at h
  · exact absurd h (by simp)
  · exact absurd h (by simp)
  · rename_i a ctx heq
    simp only [Except.ok.injEq] at h
    intro id hid
    rw [← h] at hid
    have hmem := List.mem_filter.mp hid
    rcases (parseShape dp hdp (parseFuel sql.data)).1 sql.data ⟨[], [], []⟩ false
      a ctx heq id hmem.1 with hm | hs
    · exact absurd hm (List.not_mem_nil id)
    · exact hs

/-- Witness for C8's amended theorem on the concrete query
`SELECT * FROM d.t` with default project `p`. -/
theorem three_part_table_ids_witness :
    ('.' ∉ ("p" : String).data) ∧
    TableParser "SELECT * FROM d.t" "p" = .ok ["p.d.t"] ∧
    (∀ id ∈ ["p.d.t"], (splitOnChar '.' id.data).length = 3) :=
  ⟨by decide, by rfl,
   three_part_table_ids "SELECT * FROM d.t" "p" (by decide) ["p.d.t"] (by rfl)⟩

set_option maxHeartbeats 2000000 in
/-- C8 (counterexample): the no-whitespace clause fails — backtick-quoted
identifier content is copied verbatim, so `\x60my ds\x60.t` yields a
returned ID containing a space — and for a default project ID containing
a dot even the three-part clause fails. -/
theorem backtick_whitespace_in_table_ids :
    TableParser "SELECT * FROM `my ds`.t" "p" = .ok ["p.my ds.t"] ∧
    ' ' ∈ ("p.my ds.t" : String).data ∧
    TableParser "SELECT * FROM d.t" "a.b" = .ok ["a.b.d.t"] ∧
    (splitOnChar '.' ("a.b.d.t" : String).data).length = 4 :=
  ⟨by rfl, by decide, by rfl, by decide⟩

/-- C9: the parser terminates on every finite input.  In the fuel-indexed
embedding, running out of fuel is the `none` result; with the budget
`parseFuel` (the one `TableParser` passes), `parseSQL` never returns
`none`, for every input string, default project, shared context and
subquery flag.  Moreover the visited-SQL set is checked at the entry of
every `parseSQL` call: a string already in the set is reported as fully
consumed at once, with the shared context unchanged, at any positive
fuel — so each exact SQL string is scanned at most once per top-level
call. -/
theorem parser_terminates :
    (∀ (sql : List Char) (dp : String) (ctx : Ctx) (inSub : Bool),
      parseSQL (parseFuel sql) sql dp ctx inSub ≠ none) ∧
    (∀ (f : Nat) (sql : List Char) (dp : String) (ctx : Ctx) (inSub : Bool),
      String.mk sql ∈ ctx.visitedSQLs →
      parseSQL (f + 1) sql dp ctx inSub = some (.ok (sql.length, ctx))) := by
  constructor
  · intro sql dp ctx inSub
    exact (parseAdequacy (parseFuel sql)).1 sql dp ctx inSub
      (by unfold parseFuel; omega)
  · intro f sql dp ctx inSub hmem
    simp only [parseSQL]
    rw [if_pos hmem]

/-- Witness for C9's visited-set clause on a concrete already-visited
string (and the fuel clause at a concrete input). -/
theorem parser_terminates_witness :
    (String.mk ['S'] ∈ (⟨[], ["S"], []⟩ : Ctx).visitedSQLs) ∧
    parseSQL 1 ['S'] "p" ⟨[], ["S"], []⟩ false =
      some (.ok (1, ⟨[], ["S"], []⟩)) ∧
    parseSQL (parseFuel []) [] "p" ⟨[], [], []⟩ false ≠ none :=
  ⟨by decide,
   parser_terminates.2 0 ['S'] "p" ⟨[], ["S"], []⟩ false (by decide),
   parser_terminates.1 [] "p" ⟨[], [], []⟩ false⟩

end BQ
